import Mathlib

/-!
# botv1.js: single-position momentum trading bot

A shallow embedding of `src/botv1.js`.

* Numbers.  JavaScript numbers are embedded as rationals (`ℚ`); the decimal literals of the
  source are written as exact fractions (`0.001 = 1/1000`, `1.01 = 101/100`,
  `0.99 = 99/100`).  Prices are the values of `parseFloat`; `NaN` is not represented.
  Division by a price of zero, which JavaScript evaluates to an infinity or to `NaN`, is
  zero in `ℚ`; ticks carry positive prices.
* Identity.  Object references (`trade`, timer handles, suspended handlers) are natural
  numbers drawn from one counter, so that `currentTrade !== trade` is a comparison of
  identifiers.
* Asynchrony.  A state holds the module-level variables together with the suspended
  asynchronous invocations (message handlers waiting at `await calculateRSI`, monitor loops
  waiting at `await axios.get` or at the ten-second sleep) and the pending timers.  An event
  is one turn of the event loop, run to its next suspension point.
* Time.  The clock counts milliseconds.  Timers fire at their due time, in the order they
  were armed: the clock cannot pass a pending timer.
* History.  The two `console.log` sites that report an entry (line 167) and an exit
  (line 249) are kept as a history of the run.
-/

namespace TradingBot

/-! ## Configuration (botv1.js lines 5-13) -/

/-- Source: `const leverage = 10`. -/
def leverage : ℚ := 10

/-- Source: `const maxLossPercent = 0.001`. -/
def maxLossPercent : ℚ := 1 / 1000

/-- Source: `const profitTargetPercent = 0.001`. -/
def profitTargetPercent : ℚ := 1 / 1000

/-- Source: `let portfolio = 10`, the starting balance. -/
def startingPortfolio : ℚ := 10

/-- Source: `const cooldownDuration = 300000` (milliseconds). -/
def cooldownDuration : Nat := 300000

/-- The delay of the force-close timer armed by `handleTradeEntry` (line 176). -/
def tradeTimeout : Nat := 180000

/-- The delay between two polls of `monitorTrade` (line 226). -/
def pollDelay : Nat := 10000

/-! ## Data model -/

/-- The `direction` field: the scanner only ever writes "long" or "short". -/
inductive Direction where
  | long
  | short
deriving DecidableEq, Repr

/-- The `outcome` argument of `exitTrade`: "trailing_stop" (line 222) or "timeout" (line 174). -/
inductive Outcome where
  | trailing_stop
  | timeout
deriving DecidableEq, Repr

/-- The two locals of `monitorTrade`: `targetPrice` and `stopLossPrice`. -/
structure Levels where
  targetPrice : ℚ
  stopLossPrice : ℚ
deriving DecidableEq, Repr

/-! ## monitorTrade (botv1.js lines 180-231) -/

/-- Lines 181-188: the levels `monitorTrade` starts from. -/
def initialLevels (direction : Direction) (entryPrice : ℚ) : Levels :=
  { targetPrice :=
      match direction with
      | .long => entryPrice * (1 + profitTargetPercent)
      | .short => entryPrice * (1 - profitTargetPercent)
    stopLossPrice :=
      match direction with
      | .long => entryPrice * (1 - maxLossPercent)
      | .short => entryPrice * (1 + maxLossPercent) }

/-- Lines 202-205: the condition guarding the ratchet. -/
def reachedTarget (direction : Direction) (currentPrice targetPrice : ℚ) : Bool :=
  match direction with
  | .long => decide (currentPrice ≥ targetPrice)
  | .short => decide (currentPrice ≤ targetPrice)

/-- Lines 202-215: `targetPrice` is reassigned first, and `stopLossPrice = targetPrice`
then reads the reassigned value. -/
def ratchet (direction : Direction) (lv : Levels) (currentPrice : ℚ) : Levels :=
  if reachedTarget direction currentPrice lv.targetPrice then
    let targetPrice :=
      match direction with
      | .long => lv.targetPrice * (101 / 100)
      | .short => lv.targetPrice * (99 / 100)
    let stopLossPrice := targetPrice
    { targetPrice := targetPrice, stopLossPrice := stopLossPrice }
  else lv

/-- The factor applied to the take-profit by one ratchet step (lines 207-209). -/
def targetFactor (direction : Direction) : ℚ :=
  match direction with
  | .long => 101 / 100
  | .short => 99 / 100

/-- Lines 218-221: the condition guarding `exitTrade(trade, currentPrice, "trailing_stop")`. -/
def stopHit (direction : Direction) (currentPrice stopLossPrice : ℚ) : Bool :=
  match direction with
  | .long => decide (currentPrice ≤ stopLossPrice)
  | .short => decide (currentPrice ≥ stopLossPrice)

/-- One pass through the body of the `while` loop for a fetched price: the levels after
the ratchet, and whether the stop check fired (`exitTrade` and `break`). -/
def observeStep (direction : Direction) (lv : Levels) (currentPrice : ℚ) : Levels × Bool :=
  let lv1 := ratchet direction lv currentPrice
  (lv1, stopHit direction currentPrice lv1.stopLossPrice)

/-- The levels after each observation of a list of fetched prices, for a loop that starts
from `lv`; the loop stops at the first observation whose stop check fires. -/
def monitorTrace (direction : Direction) (lv : Levels) : List ℚ → List Levels
  | [] => []
  | currentPrice :: rest =>
    let r := observeStep direction lv currentPrice
    r.1 :: (if r.2 then [] else monitorTrace direction r.1 rest)

/-- The levels of a position entered at `entryPrice`: the initial ones, then those after
each observation. -/
def levelsTrace (direction : Direction) (entryPrice : ℚ) (prices : List ℚ) : List Levels :=
  initialLevels direction entryPrice :: monitorTrace direction (initialLevels direction entryPrice) prices

/-! ## The scanner (botv1.js lines 83-130) -/

/-- One element of the `!miniTicker@arr` array: `s` is the symbol and `c` the value of
`parseFloat(ticker.c)`. -/
structure Ticker where
  s : String
  c : ℚ
deriving DecidableEq, Repr

/-- The `bestTrade` object of lines 121-126. -/
structure Candidate where
  symbol : String
  currentPrice : ℚ
  priceChangePercent : ℚ
  direction : Direction
deriving DecidableEq, Repr

/-- Source: `ticker.s.endsWith("USDT")`. -/
def endsWithUSDT (s : String) : Bool := "USDT".data.isSuffixOf s.data

/-- Line 89-91: `tickers.filter(t => t.s.endsWith("USDT") && !cooldownCoins.has(t.s))`. -/
def usdtPairs (cooldownCoins : List String) (tickers : List Ticker) : List Ticker :=
  tickers.filter (fun ticker => endsWithUSDT ticker.s && !cooldownCoins.contains ticker.s)

/-- Lines 101-102: `((currentPrice - openPrice) / openPrice) * 100`. -/
def priceChangePercent (currentPrice openPrice : ℚ) : ℚ :=
  ((currentPrice - openPrice) / openPrice) * 100

/-- Lines 106-115: whether the `continue` of the RSI filter is taken; `none` is the `null`
that `calculateRSI` returns from its `catch`. -/
def rsiRejects (change : ℚ) (rsi : Option ℚ) : Bool :=
  match rsi with
  | none => false
  | some r => (decide (change > 0) && decide (r ≥ 70)) || (decide (change < 0) && decide (r ≤ 30))

/-- Lines 121-126. -/
def mkCandidate (symbol : String) (currentPrice change : ℚ) : Candidate :=
  { symbol := symbol
    currentPrice := currentPrice
    priceChangePercent := change
    direction := if change > 0 then .long else .short }

/-- The body of the `for` loop, lines 96-129, as a function of `bestTrade`.  The table
lookup `openPrices[symbol]` is truthy when the symbol has an entry that is not zero. -/
def scanStep (openPrices rsi : String → Option ℚ) (bestTrade : Option Candidate)
    (ticker : Ticker) : Option Candidate :=
  match openPrices ticker.s with
  | none => bestTrade
  | some openPrice =>
    if openPrice = 0 then bestTrade
    else
      let change := priceChangePercent ticker.c openPrice
      if |change| > 2 then
        if rsiRejects change (rsi ticker.s) then bestTrade
        else
          match bestTrade with
          | none => some (mkCandidate ticker.s ticker.c change)
          | some best =>
            if |change| < |best.priceChangePercent| then
              some (mkCandidate ticker.s ticker.c change)
            else bestTrade
      else bestTrade

/-- Lines 88-130: the value of `bestTrade` when the loop ends. -/
def scan (cooldownCoins : List String) (openPrices rsi : String → Option ℚ)
    (tickers : List Ticker) : Option Candidate :=
  (usdtPairs cooldownCoins tickers).foldl (scanStep openPrices rsi) none

/-- Whether the loop reaches `await calculateRSI(symbol)` for this ticker (lines 99-105). -/
def passesThreshold (openPrices : String → Option ℚ) (ticker : Ticker) : Bool :=
  match openPrices ticker.s with
  | none => false
  | some openPrice =>
    if openPrice = 0 then false else decide (|priceChangePercent ticker.c openPrice| > 2)

/-- No RSI data: `calculateRSI` returns `null` for every symbol. -/
def noRsi : String → Option ℚ := fun _ => none

/-! ## Program state -/

/-- The object stored in `currentTrade` (lines 158-165); `id` stands for its identity. -/
structure Trade where
  id : Nat
  symbol : String
  entryPrice : ℚ
  positionSize : ℚ
  direction : Direction
  trailingStopPrice : Option ℚ
  timeoutId : Option Nat
deriving DecidableEq, Repr

/-- Where a running `monitorTrade` is suspended: at `await axios.get` or at the
ten-second `await new Promise`. -/
inductive Phase where
  | fetching
  | sleeping
deriving DecidableEq, Repr

/-- A running invocation of `monitorTrade(trade)`: the trade it refers to, the two fields
of it that the loop reads, and its locals. -/
structure Monitor where
  trade : Nat
  symbol : String
  direction : Direction
  levels : Levels
  phase : Phase
deriving DecidableEq, Repr

/-- An invocation of the message handler suspended inside its loop at
`await calculateRSI`; `bestTrade` is the value the loop will end with. -/
structure Handler where
  id : Nat
  bestTrade : Option Candidate
deriving DecidableEq, Repr

/-- The callbacks given to `setTimeout`: line 171 (with the `symbol` and `currentPrice`
of `handleTradeEntry` in its closure), line 256, and line 226. -/
inductive TimerAction where
  | forceClose (symbol : String) (currentPrice : ℚ)
  | cooldownDelete (symbol : String)
  | resolveSleep (trade : Nat)
deriving DecidableEq, Repr

/-- A pending timer. -/
structure Timer where
  id : Nat
  due : Nat
  action : TimerAction
deriving DecidableEq, Repr

/-- What the two `console.log` sites of lines 167 and 249 report, kept as a history. -/
inductive HistoryEvent where
  | entered (trade : Trade)
  | exited (trade : Trade) (exitPrice : ℚ) (outcome : Outcome) (time : Nat)
deriving DecidableEq, Repr

/-- The module-level variables (`portfolio`, `currentTrade`, `cooldownCoins`), the socket,
the suspended asynchronous invocations, the pending timers and the clock. -/
structure State where
  now : Nat
  portfolio : ℚ
  currentTrade : Option Trade
  cooldownCoins : List String
  wsOpen : Bool
  monitors : List Monitor
  handlers : List Handler
  timers : List Timer
  nextId : Nat
  history : List HistoryEvent
deriving DecidableEq, Repr

/-- The state when `startWebSocket` has been called, for a starting balance. -/
def initialState (balance : ℚ) : State :=
  { now := 0
    portfolio := balance
    currentTrade := none
    cooldownCoins := []
    wsOpen := true
    monitors := []
    handlers := []
    timers := []
    nextId := 0
    history := [] }

/-! ## exitTrade (botv1.js lines 234-259) -/

/-- Source: `clearTimeout(id)`. -/
def clearTimeout (timers : List Timer) (id : Nat) : List Timer :=
  timers.filter (fun tm => tm.id != id)

/-- Source: `cooldownCoins.add(symbol)`. -/
def cooldownAdd (cooldownCoins : List String) (symbol : String) : List String :=
  if cooldownCoins.contains symbol then cooldownCoins else cooldownCoins ++ [symbol]

/-- Source: `cooldownCoins.delete(symbol)`. -/
def cooldownRemove (cooldownCoins : List String) (symbol : String) : List String :=
  cooldownCoins.filter (fun s => s != symbol)

/-- Lines 237-245. -/
def profitOrLoss (trade : Trade) (exitPrice : ℚ) : ℚ :=
  match trade.direction with
  | .long => (exitPrice - trade.entryPrice) * trade.positionSize * leverage
  | .short => (trade.entryPrice - exitPrice) * trade.positionSize * leverage

/-- The function `exitTrade(trade, exitPrice, outcome)`; `trade` is the identity of the
object passed, whose fields are read only when it is `currentTrade`. -/
def exitTrade (st : State) (trade : Nat) (exitPrice : ℚ) (outcome : Outcome) : State :=
  match st.currentTrade with
  | none => st
  | some t =>
    if t.id = trade then
      { st with
        portfolio := st.portfolio + profitOrLoss t exitPrice
        history := st.history ++ [.exited t exitPrice outcome st.now]
        timers :=
          (match t.timeoutId with
            | some id => clearTimeout st.timers id
            | none => st.timers)
            ++ [{ id := st.nextId, due := st.now + cooldownDuration,
                  action := .cooldownDelete t.symbol }]
        nextId := st.nextId + 1
        cooldownCoins := cooldownAdd st.cooldownCoins t.symbol
        currentTrade := none }
    else st

/-! ## handleTradeEntry (botv1.js lines 149-177) -/

/-- The function `handleTradeEntry(ticker)`, up to its return: the trade object is created,
`monitorTrade` runs to its first `await` (it stores the initial stop in
`trailingStopPrice`), and the force-close timer is armed. -/
def handleTradeEntry (st : State) (ticker : Candidate) : State :=
  if st.currentTrade.isSome then st
  else
    let riskAmount := st.portfolio
    let positionSize := riskAmount / ticker.currentPrice
    if positionSize ≤ 0 then st
    else
      let lv := initialLevels ticker.direction ticker.currentPrice
      let trade : Trade :=
        { id := st.nextId
          symbol := ticker.symbol
          entryPrice := ticker.currentPrice
          positionSize := positionSize
          direction := ticker.direction
          trailingStopPrice := some lv.stopLossPrice
          timeoutId := some (st.nextId + 1) }
      { st with
        currentTrade := some trade
        history := st.history ++ [.entered trade]
        monitors := st.monitors ++
          [{ trade := trade.id, symbol := trade.symbol, direction := trade.direction,
             levels := lv, phase := .fetching }]
        timers := st.timers ++
          [{ id := st.nextId + 1, due := st.now + tradeTimeout,
             action := .forceClose ticker.symbol ticker.currentPrice }]
        nextId := st.nextId + 2 }

/-! ## The monitoring loop inside the program state -/

/-- Line 192: `currentTrade && currentTrade.symbol === trade.symbol`. -/
def loopCondition (st : State) (symbol : String) : Bool :=
  match st.currentTrade with
  | none => false
  | some t => t.symbol == symbol

/-- The monitor of a trade that is suspended in the given phase, if any. -/
def findMonitor (st : State) (trade : Nat) (phase : Phase) : Option Monitor :=
  st.monitors.find? (fun m => m.trade == trade && m.phase == phase)

/-- The monitor list without the invocation for a trade (the loop has ended). -/
def removeMonitor (monitors : List Monitor) (trade : Nat) : List Monitor :=
  monitors.filter (fun m => m.trade != trade)

/-- The monitor list with the invocation for a trade replaced. -/
def setMonitor (monitors : List Monitor) (m : Monitor) : List Monitor :=
  monitors.map (fun x => if x.trade = m.trade then m else x)

/-- The `while` test of line 192, evaluated after the sleep or after the `catch`: the
loop either issues the next request or ends. -/
def loopTest (st : State) (m : Monitor) : State :=
  if loopCondition st m.symbol then
    { st with monitors := setMonitor st.monitors { m with phase := .fetching } }
  else { st with monitors := removeMonitor st.monitors m.trade }

/-- Lines 197-226: the response to `axios.get` arrives with a price. -/
def priceArrives (st : State) (trade : Nat) (currentPrice : ℚ) : State :=
  match findMonitor st trade .fetching with
  | none => st
  | some m =>
    let r := observeStep m.direction m.levels currentPrice
    if r.2 then
      exitTrade { st with monitors := removeMonitor st.monitors trade } trade currentPrice
        .trailing_stop
    else
      { st with
        monitors := setMonitor st.monitors { m with levels := r.1, phase := .sleeping }
        timers := st.timers ++
          [{ id := st.nextId, due := st.now + pollDelay, action := .resolveSleep trade }]
        nextId := st.nextId + 1 }

/-- Lines 227-229: `axios.get` fails; the `catch` logs and the loop test runs again. -/
def fetchFails (st : State) (trade : Nat) : State :=
  match findMonitor st trade .fetching with
  | none => st
  | some m => loopTest st m

/-- Line 226: the ten-second promise resolves. -/
def resolveSleep (st : State) (trade : Nat) : State :=
  match findMonitor st trade .sleeping with
  | none => st
  | some m => loopTest st m

/-! ## The message handler (botv1.js lines 81-141) -/

/-- Lines 134-137: `ws.close()` when the balance is out of bounds. -/
def haltCheck (st : State) : State :=
  if st.portfolio > 10000 ∨ st.portfolio ≤ 0 then { st with wsOpen := false } else st

/-- Lines 132-137: what the handler does once its loop has ended. -/
def finishMessage (st : State) (bestTrade : Option Candidate) : State :=
  haltCheck
    (match bestTrade with
      | some best => handleTradeEntry st best
      | none => st)

/-- A message arrives on the open socket.  The handler returns at once when a trade is
active; otherwise it filters and scans.  When no ticker reaches
`await calculateRSI` the handler runs to its end in the same turn; otherwise it is
suspended and finishes in a later turn (`resumeHandler`). -/
def onMessage (openPrices : String → Option ℚ) (st : State) (tickers : List Ticker)
    (rsi : String → Option ℚ) : State :=
  if st.wsOpen = false then st
  else if st.currentTrade.isSome then st
  else
    let pairs := usdtPairs st.cooldownCoins tickers
    let bestTrade := scan st.cooldownCoins openPrices rsi tickers
    if pairs.any (passesThreshold openPrices) then
      { st with
        handlers := st.handlers ++ [{ id := st.nextId, bestTrade := bestTrade }]
        nextId := st.nextId + 1 }
    else finishMessage st bestTrade

/-- The last `await calculateRSI` of a suspended handler resolves: lines 132-137 run. -/
def resumeHandler (st : State) (handler : Nat) : State :=
  match st.handlers.find? (fun h => h.id == handler) with
  | none => st
  | some h =>
    finishMessage { st with handlers := st.handlers.filter (fun x => x.id != handler) }
      h.bestTrade

/-! ## Timers and the clock -/

/-- The body of a timer callback. -/
def runTimer (st : State) (action : TimerAction) : State :=
  match action with
  | .forceClose symbol currentPrice =>
    match st.currentTrade with
    | none => st
    | some t => if t.symbol = symbol then exitTrade st t.id currentPrice .timeout else st
  | .cooldownDelete symbol =>
    { st with cooldownCoins := cooldownRemove st.cooldownCoins symbol }
  | .resolveSleep trade => resolveSleep st trade

/-- A due timer fires unless it has been cleared in the meantime. -/
def fireTimer (st : State) (tm : Timer) : State :=
  if tm ∈ st.timers then runTimer { st with timers := st.timers.erase tm } tm.action
  else st

/-- The clock advances by `dt` milliseconds and the timers due at the new time fire, in
the order they were armed.  Timers fire on time: the clock cannot pass a pending timer. -/
def advance (st : State) (dt : Nat) : State :=
  if st.timers.any (fun tm => decide (tm.due < st.now + dt)) then st
  else
    (st.timers.filter (fun tm => tm.due == st.now + dt)).foldl fireTimer
      { st with now := st.now + dt }

/-! ## Runs -/

/-- The turns of the event loop.  The last two are direct calls of `handleTradeEntry` and
`exitTrade` with arbitrary arguments. -/
inductive Event where
  | message (tickers : List Ticker) (rsi : String → Option ℚ)
  | resume (handler : Nat)
  | priceArrives (trade : Nat) (price : ℚ)
  | fetchFails (trade : Nat)
  | advance (dt : Nat)
  | handleTradeEntry (ticker : Candidate)
  | exitTrade (trade : Nat) (exitPrice : ℚ) (outcome : Outcome)

/-- One turn. -/
def step (openPrices : String → Option ℚ) (st : State) : Event → State
  | .message tickers rsi => onMessage openPrices st tickers rsi
  | .resume handler => resumeHandler st handler
  | .priceArrives trade price => priceArrives st trade price
  | .fetchFails trade => fetchFails st trade
  | .advance dt => advance st dt
  | .handleTradeEntry ticker => handleTradeEntry st ticker
  | .exitTrade trade exitPrice outcome => exitTrade st trade exitPrice outcome

/-- A sequence of turns. -/
def run (openPrices : String → Option ℚ) (st : State) (events : List Event) : State :=
  events.foldl (step openPrices) st

/-! ## Observations on the history -/

/-- The positions entered so far (line 167 was reached). -/
def entries : List HistoryEvent → Nat
  | [] => 0
  | .entered _ :: rest => entries rest + 1
  | .exited _ _ _ _ :: rest => entries rest

/-- The positions exited so far (line 249 was reached). -/
def exits : List HistoryEvent → Nat
  | [] => 0
  | .entered _ :: rest => exits rest
  | .exited _ _ _ _ :: rest => exits rest + 1

/-- The single-active-trade invariant: the positions entered and not yet exited are
exactly the one in `currentTrade`, if any. -/
def SingleActive (st : State) : Prop :=
  entries st.history = exits st.history + (if st.currentTrade.isSome then 1 else 0)

/-! ## Orderings on levels -/

/-- Both levels of `b` are at or above those of `a`. -/
def Levels.NotBelow (a b : Levels) : Prop :=
  a.stopLossPrice ≤ b.stopLossPrice ∧ a.targetPrice ≤ b.targetPrice

/-- Both levels of `b` are at or below those of `a`. -/
def Levels.NotAbove (a b : Levels) : Prop :=
  b.stopLossPrice ≤ a.stopLossPrice ∧ b.targetPrice ≤ a.targetPrice

/-! ## The selection rule in the words of the specification -/

/-- The signed percentage deviation of a tick from its reference price (zero when the
table has no entry for the symbol). -/
def changePercent (openPrices : String → Option ℚ) (ticker : Ticker) : ℚ :=
  match openPrices ticker.s with
  | some ref => (ticker.c - ref) / ref * 100
  | none => 0

/-- A tick qualifies when its symbol ends in USDT, is not in the cooldown set, has a
reference price, and the absolute deviation is strictly greater than 2. -/
def qualifies (cooldownCoins : List String) (openPrices : String → Option ℚ)
    (ticker : Ticker) : Bool :=
  endsWithUSDT ticker.s && !cooldownCoins.contains ticker.s
    && (match openPrices ticker.s with
        | some ref => decide (ref ≠ 0) && decide (|changePercent openPrices ticker| > 2)
        | none => false)

/-- Whether a timer was armed by line 256 (`cooldownCoins.delete`). -/
def isCooldownTimer (tm : Timer) : Bool :=
  match tm.action with
  | .cooldownDelete _ => true
  | _ => false

/-- An update that leaves the clock, the balance, the slot, the cooldown set and the history
alone, and that only removes timers or arms timers with fresh identifiers, due later than
now, that are not cooldown timers. -/
structure Minor (st st1 : State) : Prop where
  now : st1.now = st.now
  portfolio : st1.portfolio = st.portfolio
  currentTrade : st1.currentTrade = st.currentTrade
  cooldownCoins : st1.cooldownCoins = st.cooldownCoins
  history : st1.history = st.history
  nextId : st.nextId ≤ st1.nextId
  timers : ∀ tm ∈ st1.timers,
    tm ∈ st.timers ∨ (st.nextId ≤ tm.id ∧ tm.id < st1.nextId ∧ st.now < tm.due)
  removals : st1.timers.filter isCooldownTimer = st.timers.filter isCooldownTimer

/-- A property of states kept by `exitTrade`, by `handleTradeEntry` and by every minor
update. -/
structure Kept (P : State → Prop) : Prop where
  exit : ∀ (st : State) (trade : Nat) (exitPrice : ℚ) (outcome : Outcome),
    P st → P (exitTrade st trade exitPrice outcome)
  entry : ∀ (st : State) (ticker : Candidate), P st → P (handleTradeEntry st ticker)
  minor : ∀ st st1 : State, Minor st st1 → P st → P st1

/-- A kept property that is also kept when a due cooldown timer fires and when the clock
advances up to the earliest pending timer. -/
structure KeptTimed (P : State → Prop) extends Kept P : Prop where
  remove : ∀ (st : State) (tm : Timer) (symbol : String), tm ∈ st.timers →
    tm.action = .cooldownDelete symbol → tm.due ≤ st.now → P st →
    P { st with timers := st.timers.erase tm
                cooldownCoins := cooldownRemove st.cooldownCoins symbol }
  tick : ∀ (st : State) (dt : Nat), (∀ tm ∈ st.timers, st.now + dt ≤ tm.due) → P st →
    P { st with now := st.now + dt }

/-! ## The cooldown window -/

/-- The times at which positions on `symbol` were closed, oldest first. -/
def exitTimes (symbol : String) : List HistoryEvent → List Nat
  | [] => []
  | .entered _ :: rest => exitTimes symbol rest
  | .exited trade _ _ time :: rest =>
    if trade.symbol = symbol then time :: exitTimes symbol rest else exitTimes symbol rest

/-- The pending timers that will delete `symbol` from the cooldown set. -/
def removalsFor (symbol : String) (timers : List Timer) : List Timer :=
  timers.filter (fun tm => decide (tm.action = .cooldownDelete symbol))

/-- Timer identifiers are below the counter; the handle stored in the current trade is not
the handle of a cooldown timer; no pending timer is overdue; every pending cooldown timer
was armed by a recorded close of its symbol. -/
structure TimerInv (st : State) : Prop where
  ids : ∀ tm ∈ st.timers, tm.id < st.nextId
  handle : ∀ t, st.currentTrade = some t → ∀ i, t.timeoutId = some i →
    i < st.nextId ∧ ∀ tm ∈ st.timers, tm.id = i → isCooldownTimer tm = false
  due : ∀ tm ∈ st.timers, st.now ≤ tm.due
  origin : ∀ symbol, ∀ tm ∈ removalsFor symbol st.timers,
    ∃ T0 ∈ exitTimes symbol st.history, tm.due = T0 + cooldownDuration

/-- When the last close of `symbol` was at `T` and every earlier one was more than the
cooldown duration before `T`: at most one removal timer for `symbol` is pending, it is due
at `T + cooldownDuration`, the symbol is in the cooldown set exactly while that timer is
pending, and the timer is gone only from its due time on. -/
def WindowInv (symbol : String) (st : State) : Prop :=
  ∀ (earlier : List Nat) (T : Nat), exitTimes symbol st.history = earlier ++ [T] →
    (∀ T0 ∈ earlier, T0 + cooldownDuration < T) →
    (∀ tm ∈ removalsFor symbol st.timers, tm.due = T + cooldownDuration)
      ∧ (removalsFor symbol st.timers).length ≤ 1
      ∧ (symbol ∈ st.cooldownCoins ↔ removalsFor symbol st.timers ≠ [])
      ∧ (removalsFor symbol st.timers = [] → T + cooldownDuration ≤ st.now)

/-- The two invariants together. -/
structure CoolInv (symbol : String) (st : State) : Prop where
  timer : TimerInv st
  window : WindowInv symbol st

/-- Every pending timer is due strictly later than now: the timers due so far have fired. -/
def Quiescent (st : State) : Prop := ∀ tm ∈ st.timers, st.now < tm.due

/-! ## The ledger in the words of the specification -/

/-- The realized profit of a closed position: `(exitPrice - entryPrice) * size * leverage`
for Long, `(entryPrice - exitPrice) * size * leverage` for Short. -/
def realizedProfit : HistoryEvent → ℚ
  | .entered _ => 0
  | .exited trade exitPrice _ _ =>
    match trade.direction with
    | .long => (exitPrice - trade.entryPrice) * trade.positionSize * 10
    | .short => (trade.entryPrice - exitPrice) * trade.positionSize * 10

/-- The sum of the realized profits of the positions closed so far. -/
def realizedTotal (history : List HistoryEvent) : ℚ :=
  (history.map realizedProfit).sum

/-- The balance is the starting balance plus the realized total. -/
def LedgerBalanced (balance : ℚ) (st : State) : Prop :=
  st.portfolio = balance + realizedTotal st.history

/-! ## Initial levels in the words of the specification -/

/-- Spec section 4.2, for a target and a loss percentage given as fractions: the initial
take-profit is `entryPrice × (1 ± targetPct)` and the initial stop-loss is
`entryPrice × (1 ∓ maxLossPct)`, sign per direction. -/
def specLevels (targetPct maxLossPct : ℚ) (direction : Direction) (entryPrice : ℚ) : Levels :=
  match direction with
  | .long =>
    { targetPrice := entryPrice * (1 + targetPct), stopLossPrice := entryPrice * (1 - maxLossPct) }
  | .short =>
    { targetPrice := entryPrice * (1 - targetPct), stopLossPrice := entryPrice * (1 + maxLossPct) }

/-! ## The scan with no momentum filter -/

/-- The body of the scan loop with the RSI block (lines 105-115) left out: a tick that
clears the threshold goes straight to the comparison with `bestTrade`. -/
def scanStepNoFilter (openPrices : String → Option ℚ) (bestTrade : Option Candidate)
    (ticker : Ticker) : Option Candidate :=
  match openPrices ticker.s with
  | none => bestTrade
  | some openPrice =>
    if openPrice = 0 then bestTrade
    else
      let change := priceChangePercent ticker.c openPrice
      if |change| > 2 then
        match bestTrade with
        | none => some (mkCandidate ticker.s ticker.c change)
        | some best =>
          if |change| < |best.priceChangePercent| then
            some (mkCandidate ticker.s ticker.c change)
          else bestTrade
      else bestTrade

/-- The scan with no momentum filter. -/
def scanNoFilter (cooldownCoins : List String) (openPrices : String → Option ℚ)
    (tickers : List Ticker) : Option Candidate :=
  (usdtPairs cooldownCoins tickers).foldl (scanStepNoFilter openPrices) none

/-- An RSI collaborator that answers 75 (overbought) for every symbol. -/
def rsiOverbought : String → Option ℚ := fun _ => some 75

/-- An RSI collaborator that answers 50 for every symbol. -/
def rsiNeutral : String → Option ℚ := fun _ => some 50

/-! ## Scenario data (spec section 8, scenario A) -/

/-- Reference price 100 for one instrument. -/
def scenarioPrices : String → Option ℚ :=
  fun symbol => if symbol = "BTCUSDT" then some 100 else none

/-- A live tick at 103 for that instrument. -/
def scenarioBatch : List Ticker := [{ s := "BTCUSDT", c := 103 }]

/-- The message is handled and the suspended handler finishes: the position is entered. -/
def scenarioEntry : List Event := [.message scenarioBatch noRsi, .resume 0]

/-- The trade object created by the scenario entry from a balance of 10. -/
def scenarioTrade : Trade :=
  { id := 1
    symbol := "BTCUSDT"
    entryPrice := 103
    positionSize := 10 / 103
    direction := .long
    trailingStopPrice := some (102897 / 1000)
    timeoutId := some 2 }

/-- The monitor started by the scenario entry, waiting for its first price. -/
def scenarioMonitor : Monitor :=
  { trade := 1
    symbol := "BTCUSDT"
    direction := .long
    levels := { targetPrice := 103103 / 1000, stopLossPrice := 102897 / 1000 }
    phase := .fetching }

/-- The scenario entry, then two polls that see 103.05 and 103.08 without crossing a
level, then the clock reaches the deadline of the force-close timer, 180 seconds after the
entry. -/
def scenarioTimeout : List Event :=
  scenarioEntry ++
    [.priceArrives 1 (10305 / 100), .advance 10000, .priceArrives 1 (10308 / 100),
     .advance 10000, .advance 160000]

/-- Scenario E: the position of the scenario entry is stopped out at once (the first poll
sees 102, below the stop 102.897), so it closes at time 0; then 60 seconds pass. -/
def scenarioCooldown : List Event :=
  scenarioEntry ++ [.priceArrives 1 102, .advance 60000]

/-- Scenario E continued to 301 seconds after the close. -/
def scenarioCooldownOver : List Event :=
  scenarioCooldown ++ [.advance 240000, .advance 1000]

/-- Two messages arrive one second apart while no trade is active; both handlers are
suspended at `await calculateRSI` with BTCUSDT as `bestTrade`.  The first finishes at
1500 ms and enters; that position is stopped out at 1700 ms.  The second finishes at 2500 ms,
finds `currentTrade` empty and enters BTCUSDT again; that position is stopped out at
2700 ms.  The clock then reaches 301700 ms, when the timer armed at 1700 ms fires. -/
def overlappingHandlers : List Event :=
  [.message scenarioBatch noRsi, .advance 1000, .message scenarioBatch noRsi, .advance 500,
   .resume 0, .advance 200, .priceArrives 2 102, .advance 800,
   .resume 1, .advance 200, .priceArrives 5 102, .advance 299000]

/-! ## Theorems -/

/-- The ratchet always leaves the stop-loss equal to the new take-profit. -/
theorem ratchet_stop_eq_target (direction : Direction) (lv : Levels) (currentPrice : ℚ)
    (h : reachedTarget direction currentPrice lv.targetPrice = true) :
    (ratchet direction lv currentPrice).stopLossPrice
      = (ratchet direction lv currentPrice).targetPrice := by
  simp [ratchet, h]

/-- C1: on the claim's own input (Long, take-profit 104.03, observed price 104.03) the ratchet
of `monitorTrade` yields take-profit 105.0703 as claimed, but the stop-loss it yields is
also 105.0703, the new take-profit, and not 104.03, the level just reached. -/
theorem C1_ratchet_stop_is_new_target :
    ratchet .long { targetPrice := 10403 / 100, stopLossPrice := 10197 / 100 } (10403 / 100)
        = { targetPrice := 1050703 / 10000, stopLossPrice := 1050703 / 10000 }
      ∧ (ratchet .long { targetPrice := 10403 / 100, stopLossPrice := 10197 / 100 }
          (10403 / 100)).stopLossPrice ≠ 10403 / 100 := by
  constructor
  · simp [ratchet, reachedTarget]; norm_num
  · simp [ratchet, reachedTarget]; norm_num

/-! ### The single-active-trade invariant -/

theorem entries_append (a b : List HistoryEvent) : entries (a ++ b) = entries a + entries b := by
  induction a with
  | nil => simp [entries]
  | cons x xs ih =>
    cases x
    · simp [entries, ih]; omega
    · simp [entries, ih]

theorem exits_append (a b : List HistoryEvent) : exits (a ++ b) = exits a + exits b := by
  induction a with
  | nil => simp [exits]
  | cons x xs ih =>
    cases x
    · simp [exits, ih]
    · simp [exits, ih]; omega

theorem singleActive_exitTrade (st : State) (trade : Nat) (exitPrice : ℚ) (outcome : Outcome)
    (h : SingleActive st) : SingleActive (exitTrade st trade exitPrice outcome) := by
  unfold exitTrade
  split
  · exact h
  · rename_i t ht
    split
    · simp [SingleActive, ht, entries_append, exits_append, entries, exits] at h ⊢
      omega
    · exact h

theorem singleActive_handleTradeEntry (st : State) (ticker : Candidate)
    (h : SingleActive st) : SingleActive (handleTradeEntry st ticker) := by
  unfold handleTradeEntry
  split
  · exact h
  · rename_i hn
    dsimp only
    split
    · exact h
    · simp only [Bool.not_eq_true, Option.not_isSome, Option.isNone_iff_eq_none] at hn
      simp [SingleActive, hn, entries_append, exits_append, entries, exits] at h ⊢
      omega

theorem singleActive_frame (st st1 : State) (hc : st1.currentTrade = st.currentTrade)
    (hh : st1.history = st.history) (h : SingleActive st) : SingleActive st1 := by
  simpa [SingleActive, hc, hh] using h

/-! ### Properties kept by every turn -/

theorem minor_of_eq (st st1 : State) (h1 : st1.now = st.now) (h2 : st1.portfolio = st.portfolio)
    (h3 : st1.currentTrade = st.currentTrade) (h4 : st1.cooldownCoins = st.cooldownCoins)
    (h5 : st1.history = st.history) (h6 : st1.nextId = st.nextId)
    (h7 : st1.timers = st.timers) : Minor st st1 :=
  { now := h1, portfolio := h2, currentTrade := h3, cooldownCoins := h4, history := h5
    nextId := le_of_eq h6.symm
    timers := fun tm htm => Or.inl (h7 ▸ htm)
    removals := by rw [h7] }

theorem filter_erase_of_false {α : Type} [DecidableEq α] (p : α → Bool) (a : α)
    (hp : p a = false) (l : List α) : (l.erase a).filter p = l.filter p := by
  induction l with
  | nil => rfl
  | cons x xs ih =>
    by_cases hx : x = a
    · subst hx
      simp [hp]
    · rw [List.erase_cons_tail (by simpa using hx)]
      simp only [List.filter_cons, ih]

theorem minor_erase (st : State) (tm : Timer) (h : isCooldownTimer tm = false) :
    Minor st { st with timers := st.timers.erase tm } :=
  { now := rfl, portfolio := rfl, currentTrade := rfl, cooldownCoins := rfl, history := rfl
    nextId := le_refl _
    timers := fun _ hx => Or.inl (List.mem_of_mem_erase hx)
    removals := filter_erase_of_false _ _ h _ }

theorem minor_sleep (st : State) (monitors : List Monitor) (trade : Nat) :
    Minor st { st with
      monitors := monitors
      timers := st.timers ++
        [{ id := st.nextId, due := st.now + pollDelay, action := .resolveSleep trade }]
      nextId := st.nextId + 1 } :=
  { now := rfl, portfolio := rfl, currentTrade := rfl, cooldownCoins := rfl, history := rfl
    nextId := Nat.le_succ _
    timers := by
      intro tm htm
      simp only [List.mem_append, List.mem_singleton] at htm
      rcases htm with h | h
      · exact Or.inl h
      · subst h
        exact Or.inr ⟨le_refl _, Nat.lt_succ_self _, by simp [pollDelay]⟩
    removals := by simp [isCooldownTimer] }

theorem minor_handler (st : State) (handlers : List Handler) :
    Minor st { st with handlers := handlers, nextId := st.nextId + 1 } :=
  { now := rfl, portfolio := rfl, currentTrade := rfl, cooldownCoins := rfl, history := rfl
    nextId := Nat.le_succ _
    timers := fun _ h => Or.inl h
    removals := rfl }

theorem kept_loopTest {P : State → Prop} (k : Kept P) (st : State) (m : Monitor) (h : P st) :
    P (loopTest st m) := by
  unfold loopTest
  split <;> exact k.minor st _ (minor_of_eq _ _ rfl rfl rfl rfl rfl rfl rfl) h

theorem kept_priceArrives {P : State → Prop} (k : Kept P) (st : State) (trade : Nat)
    (price : ℚ) (h : P st) : P (priceArrives st trade price) := by
  unfold priceArrives
  split
  · exact h
  · dsimp only
    split
    · exact k.exit _ _ _ _ (k.minor st _ (minor_of_eq _ _ rfl rfl rfl rfl rfl rfl rfl) h)
    · exact k.minor st _ (minor_sleep st _ trade) h

theorem kept_resolveSleep {P : State → Prop} (k : Kept P) (st : State) (trade : Nat)
    (h : P st) : P (resolveSleep st trade) := by
  unfold resolveSleep
  split
  · exact h
  · exact kept_loopTest k _ _ h

theorem kept_fetchFails {P : State → Prop} (k : Kept P) (st : State) (trade : Nat)
    (h : P st) : P (fetchFails st trade) := by
  unfold fetchFails
  split
  · exact h
  · exact kept_loopTest k _ _ h

theorem kept_haltCheck {P : State → Prop} (k : Kept P) (st : State) (h : P st) :
    P (haltCheck st) := by
  unfold haltCheck
  split
  · exact k.minor st _ (minor_of_eq _ _ rfl rfl rfl rfl rfl rfl rfl) h
  · exact h

theorem kept_finishMessage {P : State → Prop} (k : Kept P) (st : State)
    (bestTrade : Option Candidate) (h : P st) : P (finishMessage st bestTrade) := by
  unfold finishMessage
  apply kept_haltCheck k
  split
  · exact k.entry _ _ h
  · exact h

theorem kept_onMessage {P : State → Prop} (k : Kept P) (openPrices : String → Option ℚ)
    (st : State) (tickers : List Ticker) (rsi : String → Option ℚ) (h : P st) :
    P (onMessage openPrices st tickers rsi) := by
  unfold onMessage
  split
  · exact h
  · split
    · exact h
    · dsimp only
      split
      · exact k.minor st _ (minor_handler st _) h
      · exact kept_finishMessage k _ _ h

theorem kept_resumeHandler {P : State → Prop} (k : Kept P) (st : State) (handler : Nat)
    (h : P st) : P (resumeHandler st handler) := by
  unfold resumeHandler
  split
  · exact h
  · exact kept_finishMessage k _ _
      (k.minor st _ (minor_of_eq _ _ rfl rfl rfl rfl rfl rfl rfl) h)

theorem exitTrade_now (st : State) (trade : Nat) (exitPrice : ℚ) (outcome : Outcome) :
    (exitTrade st trade exitPrice outcome).now = st.now := by
  unfold exitTrade
  split
  · rfl
  · split <;> rfl

theorem loopTest_now (st : State) (m : Monitor) : (loopTest st m).now = st.now := by
  unfold loopTest
  split <;> rfl

theorem resolveSleep_now (st : State) (trade : Nat) : (resolveSleep st trade).now = st.now := by
  unfold resolveSleep
  split
  · rfl
  · exact loopTest_now _ _

theorem runTimer_now (st : State) (action : TimerAction) :
    (runTimer st action).now = st.now := by
  unfold runTimer
  split
  · split
    · rfl
    · split
      · exact exitTrade_now _ _ _ _
      · rfl
  · rfl
  · exact resolveSleep_now _ _

theorem fireTimer_now (st : State) (tm : Timer) : (fireTimer st tm).now = st.now := by
  unfold fireTimer
  split
  · exact runTimer_now _ _
  · rfl

theorem kept_fireTimer {P : State → Prop} (k : KeptTimed P) (st : State) (tm : Timer)
    (hd : tm.due ≤ st.now) (h : P st) : P (fireTimer st tm) := by
  unfold fireTimer
  split
  · rename_i hmem
    cases ha : tm.action with
    | forceClose symbol currentPrice =>
      have h1 := k.minor st _ (minor_erase st tm (by simp [isCooldownTimer, ha])) h
      simp only [runTimer]
      split
      · exact h1
      · split
        · exact k.exit _ _ _ _ h1
        · exact h1
    | cooldownDelete symbol =>
      exact k.remove st tm symbol hmem ha hd h
    | resolveSleep trade =>
      have h1 := k.minor st _ (minor_erase st tm (by simp [isCooldownTimer, ha])) h
      exact kept_resolveSleep k.toKept _ _ h1
  · exact h

theorem kept_foldl_fireTimer {P : State → Prop} (k : KeptTimed P) (due : List Timer)
    (st : State) (hd : ∀ tm ∈ due, tm.due ≤ st.now) (h : P st) :
    P (due.foldl fireTimer st) := by
  induction due generalizing st with
  | nil => exact h
  | cons tm rest ih =>
    refine ih _ ?_ (kept_fireTimer k st tm (hd tm (by simp)) h)
    intro x hx
    rw [fireTimer_now]
    exact hd x (by simp [hx])

theorem kept_advance {P : State → Prop} (k : KeptTimed P) (st : State) (dt : Nat) (h : P st) :
    P (advance st dt) := by
  unfold advance
  split
  · exact h
  · rename_i hg
    refine kept_foldl_fireTimer k _ _ ?_ (k.tick st dt ?_ h)
    · intro tm htm
      simp only [List.mem_filter, beq_iff_eq] at htm
      exact le_of_eq htm.2
    · intro tm htm
      simp only [List.any_eq_true, decide_eq_true_eq, not_exists, not_and, not_lt] at hg
      exact hg tm htm

theorem kept_step {P : State → Prop} (k : KeptTimed P) (openPrices : String → Option ℚ)
    (st : State) (ev : Event) (h : P st) : P (step openPrices st ev) := by
  cases ev with
  | message tickers rsi => exact kept_onMessage k.toKept _ _ _ _ h
  | resume handler => exact kept_resumeHandler k.toKept _ _ h
  | priceArrives trade price => exact kept_priceArrives k.toKept _ _ _ h
  | fetchFails trade => exact kept_fetchFails k.toKept _ _ h
  | advance dt => exact kept_advance k _ _ h
  | handleTradeEntry ticker => exact k.entry _ _ h
  | exitTrade trade exitPrice outcome => exact k.exit _ _ _ _ h

theorem kept_run {P : State → Prop} (k : KeptTimed P) (openPrices : String → Option ℚ)
    (events : List Event) (st : State) (h : P st) : P (run openPrices st events) := by
  induction events generalizing st with
  | nil => exact h
  | cons ev rest ih => exact ih _ (kept_step k openPrices st ev h)

theorem singleActive_kept : KeptTimed SingleActive :=
  { exit := singleActive_exitTrade
    entry := singleActive_handleTradeEntry
    minor := fun st st1 m h => singleActive_frame st st1 m.currentTrade m.history h
    remove := fun st _ _ _ _ _ h => singleActive_frame st _ rfl rfl h
    tick := fun st _ _ h => singleActive_frame st _ rfl rfl h }

theorem handleTradeEntry_active (st : State) (ticker : Candidate)
    (h : st.currentTrade.isSome = true) : handleTradeEntry st ticker = st := by
  simp [handleTradeEntry, h]

theorem onMessage_active (openPrices : String → Option ℚ) (st : State) (tickers : List Ticker)
    (rsi : String → Option ℚ) (h : st.currentTrade.isSome = true) :
    onMessage openPrices st tickers rsi = st := by
  simp [onMessage, h]

theorem resumeHandler_active (st : State) (handler : Nat)
    (h : st.currentTrade.isSome = true) :
    (resumeHandler st handler).currentTrade = st.currentTrade
      ∧ (resumeHandler st handler).portfolio = st.portfolio
      ∧ (resumeHandler st handler).cooldownCoins = st.cooldownCoins
      ∧ (resumeHandler st handler).history = st.history := by
  unfold resumeHandler
  split
  · exact ⟨rfl, rfl, rfl, rfl⟩
  · rename_i hd _
    unfold finishMessage
    split
    · rw [handleTradeEntry_active _ _ (by simpa using h)]
      unfold haltCheck
      split <;> exact ⟨rfl, rfl, rfl, rfl⟩
    · unfold haltCheck
      split <;> exact ⟨rfl, rfl, rfl, rfl⟩

/-- C2: in every state reached from the initial state by any sequence of messages, handler
resumptions, price observations, fetch failures, clock advances with timer firings, and
direct calls of handleTradeEntry and exitTrade, the positions entered and not yet exited
are exactly the one held in currentTrade (so at most one is open); while a position is
open, handleTradeEntry leaves the whole state unchanged (position, balance and cooldown
set included), so does a tick batch, and a handler suspended earlier that finishes now
leaves the position, the balance, the cooldown set and the history unchanged. -/
theorem C2_single_active_trade (openPrices : String → Option ℚ) (balance : ℚ)
    (events : List Event) :
    SingleActive (run openPrices (initialState balance) events)
      ∧ entries (run openPrices (initialState balance) events).history
          ≤ exits (run openPrices (initialState balance) events).history + 1
      ∧ (∀ ticker : Candidate,
          (run openPrices (initialState balance) events).currentTrade.isSome = true →
          handleTradeEntry (run openPrices (initialState balance) events) ticker
            = run openPrices (initialState balance) events)
      ∧ (∀ (tickers : List Ticker) (rsi : String → Option ℚ),
          (run openPrices (initialState balance) events).currentTrade.isSome = true →
          onMessage openPrices (run openPrices (initialState balance) events) tickers rsi
            = run openPrices (initialState balance) events)
      ∧ (∀ handler : Nat,
          (run openPrices (initialState balance) events).currentTrade.isSome = true →
          (resumeHandler (run openPrices (initialState balance) events) handler).currentTrade
              = (run openPrices (initialState balance) events).currentTrade
            ∧ (resumeHandler (run openPrices (initialState balance) events) handler).portfolio
              = (run openPrices (initialState balance) events).portfolio
            ∧ (resumeHandler (run openPrices (initialState balance) events)
                handler).cooldownCoins
              = (run openPrices (initialState balance) events).cooldownCoins) := by
  have hinv : SingleActive (run openPrices (initialState balance) events) :=
    kept_run singleActive_kept openPrices events _
      (by simp [SingleActive, initialState, entries, exits])
  refine ⟨hinv, ?_, ?_, ?_, ?_⟩
  · unfold SingleActive at hinv
    split at hinv <;> omega
  · intro ticker h
    exact handleTradeEntry_active _ _ h
  · intro tickers rsi h
    exact onMessage_active _ _ _ _ h
  · intro handler h
    obtain ⟨h1, h2, h3, _⟩ := resumeHandler_active _ handler h
    exact ⟨h1, h2, h3⟩

/-- C2 witness: after the scenario entry a position is open, and a further candidate and a
further tick batch leave the state unchanged. -/
theorem C2_single_active_trade_witness :
    (run scenarioPrices (initialState 10) scenarioEntry).currentTrade.isSome = true
      ∧ handleTradeEntry (run scenarioPrices (initialState 10) scenarioEntry)
          (mkCandidate "ETHUSDT" 50 3)
          = run scenarioPrices (initialState 10) scenarioEntry
      ∧ onMessage scenarioPrices (run scenarioPrices (initialState 10) scenarioEntry)
          scenarioBatch noRsi
          = run scenarioPrices (initialState 10) scenarioEntry :=
  ⟨by decide!,
   (C2_single_active_trade scenarioPrices 10 scenarioEntry).2.2.1 (mkCandidate "ETHUSDT" 50 3)
     (by decide!),
   (C2_single_active_trade scenarioPrices 10 scenarioEntry).2.2.2.1 scenarioBatch noRsi
     (by decide!)⟩

/-! ### Ratchet monotonicity -/

theorem ratchet_long_rises (lv : Levels) (p : ℚ) (h0 : 0 < lv.targetPrice)
    (h1 : lv.stopLossPrice ≤ lv.targetPrice) :
    lv.NotBelow (ratchet .long lv p) ∧ 0 < (ratchet .long lv p).targetPrice
      ∧ (ratchet .long lv p).stopLossPrice ≤ (ratchet .long lv p).targetPrice := by
  unfold ratchet Levels.NotBelow
  split
  · dsimp only
    refine ⟨⟨?_, ?_⟩, ?_, le_refl _⟩ <;> nlinarith
  · exact ⟨⟨le_refl _, le_refl _⟩, h0, h1⟩

theorem ratchet_short_falls (lv : Levels) (p : ℚ) (h0 : 0 < lv.targetPrice)
    (h1 : lv.targetPrice ≤ lv.stopLossPrice) :
    lv.NotAbove (ratchet .short lv p) ∧ 0 < (ratchet .short lv p).targetPrice
      ∧ (ratchet .short lv p).targetPrice ≤ (ratchet .short lv p).stopLossPrice := by
  unfold ratchet Levels.NotAbove
  split
  · dsimp only
    refine ⟨⟨?_, ?_⟩, ?_, le_refl _⟩ <;> nlinarith
  · exact ⟨⟨le_refl _, le_refl _⟩, h0, h1⟩

theorem monitorTrace_long_chain (prices : List ℚ) (lv : Levels) (h0 : 0 < lv.targetPrice)
    (h1 : lv.stopLossPrice ≤ lv.targetPrice) :
    List.Chain Levels.NotBelow lv (monitorTrace .long lv prices) := by
  induction prices generalizing lv with
  | nil => exact List.Chain.nil
  | cons p rest ih =>
    obtain ⟨hr, h0n, h1n⟩ := ratchet_long_rises lv p h0 h1
    simp only [monitorTrace, observeStep]
    refine List.Chain.cons hr ?_
    split
    · exact List.Chain.nil
    · exact ih _ h0n h1n

theorem monitorTrace_short_chain (prices : List ℚ) (lv : Levels) (h0 : 0 < lv.targetPrice)
    (h1 : lv.targetPrice ≤ lv.stopLossPrice) :
    List.Chain Levels.NotAbove lv (monitorTrace .short lv prices) := by
  induction prices generalizing lv with
  | nil => exact List.Chain.nil
  | cons p rest ih =>
    obtain ⟨hr, h0n, h1n⟩ := ratchet_short_falls lv p h0 h1
    simp only [monitorTrace, observeStep]
    refine List.Chain.cons hr ?_
    split
    · exact List.Chain.nil
    · exact ih _ h0n h1n

/-- C3: for a position entered at a positive price and any finite sequence of observed
prices, the levels held by monitorTrade (initial levels, then the levels after each
observation) never decrease from one observation to the next for Long, stop-loss and
take-profit alike, and never increase for Short. -/
theorem C3_ratchet_monotone (entryPrice : ℚ) (prices : List ℚ) (h : 0 < entryPrice) :
    List.Chain' Levels.NotBelow (levelsTrace .long entryPrice prices)
      ∧ List.Chain' Levels.NotAbove (levelsTrace .short entryPrice prices) := by
  constructor
  · apply monitorTrace_long_chain
    · simp only [initialLevels, profitTargetPercent]; nlinarith
    · simp only [initialLevels, profitTargetPercent, maxLossPercent]; nlinarith
  · apply monitorTrace_short_chain
    · simp only [initialLevels, profitTargetPercent]; nlinarith
    · simp only [initialLevels, profitTargetPercent, maxLossPercent]; nlinarith

/-- C3 witness: entry at 103 and the prices 103.2, 104.3, 104. -/
theorem C3_ratchet_monotone_witness :
    (0 : ℚ) < 103
      ∧ List.Chain' Levels.NotBelow (levelsTrace .long 103 [1032 / 10, 1043 / 10, 104])
      ∧ List.Chain' Levels.NotAbove (levelsTrace .short 103 [1032 / 10, 1043 / 10, 104]) :=
  ⟨by norm_num, C3_ratchet_monotone 103 [1032 / 10, 1043 / 10, 104] (by norm_num)⟩

/-! ### The scanner -/

theorem passesThreshold_iff (openPrices : String → Option ℚ) (t : Ticker) :
    passesThreshold openPrices t = true
      ↔ ∃ ref, openPrices t.s = some ref ∧ ref ≠ 0 ∧ |changePercent openPrices t| > 2 := by
  unfold passesThreshold changePercent priceChangePercent
  cases h : openPrices t.s with
  | none => simp
  | some ref =>
    by_cases h0 : ref = 0
    · simp [h0]
    · simp [h0]

theorem scanStep_noRsi (openPrices : String → Option ℚ) (best : Option Candidate) (t : Ticker) :
    scanStep openPrices noRsi best t
      = if passesThreshold openPrices t then
          (match best with
            | none => some (mkCandidate t.s t.c (changePercent openPrices t))
            | some b =>
              if |changePercent openPrices t| < |b.priceChangePercent| then
                some (mkCandidate t.s t.c (changePercent openPrices t))
              else best)
        else best := by
  unfold scanStep passesThreshold changePercent priceChangePercent
  cases h : openPrices t.s with
  | none => simp
  | some ref =>
    by_cases h0 : ref = 0
    · simp [h0]
    · by_cases h2 : |(t.c - ref) / ref * 100| > 2
      · simp [h0, h2, noRsi, rsiRejects]
      · simp [h0, h2]

theorem scan_fold_spec (openPrices : String → Option ℚ) (l : List Ticker)
    (best : Option Candidate) :
    ((l.foldl (scanStep openPrices noRsi) best).isSome = true
        ↔ best.isSome = true ∨ ∃ t ∈ l, passesThreshold openPrices t = true)
      ∧ ∀ c, l.foldl (scanStep openPrices noRsi) best = some c →
          (best = some c
              ∨ ∃ t ∈ l, passesThreshold openPrices t = true
                  ∧ c = mkCandidate t.s t.c (changePercent openPrices t))
            ∧ (∀ b, best = some b → |c.priceChangePercent| ≤ |b.priceChangePercent|)
            ∧ ∀ u ∈ l, passesThreshold openPrices u = true →
                |c.priceChangePercent| ≤ |changePercent openPrices u| := by
  induction l generalizing best with
  | nil =>
    simp only [List.foldl_nil, List.not_mem_nil, false_and, exists_false, or_false, true_and]
    intro c hc
    refine ⟨hc, ?_, by simp⟩
    intro b hb
    rw [hc] at hb
    cases Option.some.inj hb
    exact le_refl _
  | cons t rest ih =>
    simp only [List.foldl_cons]
    obtain ⟨ih1, ih2⟩ := ih (scanStep openPrices noRsi best t)
    rw [scanStep_noRsi] at ih1 ih2 ⊢
    by_cases hp : passesThreshold openPrices t = true
    · simp only [hp, if_true] at ih1 ih2 ⊢
      cases hb : best with
      | none =>
        simp only [hb] at ih1 ih2 ⊢
        refine ⟨by simp [ih1, hp], ?_⟩
        intro c hc
        obtain ⟨h1, h2, h3⟩ := ih2 c hc
        have hle : |c.priceChangePercent| ≤ |changePercent openPrices t| := by
          simpa [mkCandidate] using h2 _ rfl
        refine ⟨Or.inr ?_, by simp, ?_⟩
        · rcases h1 with h1 | ⟨u, hu, hup, hcu⟩
          · exact ⟨t, by simp, hp, (Option.some.inj h1).symm⟩
          · exact ⟨u, by simp [hu], hup, hcu⟩
        · intro u hu hup
          rcases List.mem_cons.mp hu with rfl | hu
          · exact hle
          · exact h3 u hu hup
      | some b =>
        simp only [hb] at ih1 ih2 ⊢
        by_cases hlt : |changePercent openPrices t| < |b.priceChangePercent|
        · simp only [hlt, if_true] at ih1 ih2 ⊢
          refine ⟨by simp [ih1], ?_⟩
          intro c hc
          obtain ⟨h1, h2, h3⟩ := ih2 c hc
          have hle : |c.priceChangePercent| ≤ |changePercent openPrices t| := by
            simpa [mkCandidate] using h2 _ rfl
          refine ⟨Or.inr ?_, ?_, ?_⟩
          · rcases h1 with h1 | ⟨u, hu, hup, hcu⟩
            · exact ⟨t, by simp, hp, (Option.some.inj h1).symm⟩
            · exact ⟨u, by simp [hu], hup, hcu⟩
          · intro b1 hb1
            cases Option.some.inj hb1
            exact le_trans hle (le_of_lt hlt)
          · intro u hu hup
            rcases List.mem_cons.mp hu with rfl | hu
            · exact hle
            · exact h3 u hu hup
        · simp only [hlt, if_false] at ih1 ih2 ⊢
          refine ⟨by simp [ih1], ?_⟩
          intro c hc
          obtain ⟨h1, h2, h3⟩ := ih2 c hc
          refine ⟨?_, h2, ?_⟩
          · rcases h1 with h1 | ⟨u, hu, hup, hcu⟩
            · exact Or.inl h1
            · exact Or.inr ⟨u, by simp [hu], hup, hcu⟩
          · intro u hu hup
            rcases List.mem_cons.mp hu with rfl | hu
            · exact le_trans (h2 b rfl) (not_lt.mp hlt)
            · exact h3 u hu hup
    · simp only [hp] at ih1 ih2 ⊢
      simp only [Bool.false_eq_true, if_false] at ih1 ih2 ⊢
      refine ⟨by simp [ih1, hp], ?_⟩
      intro c hc
      obtain ⟨h1, h2, h3⟩ := ih2 c hc
      refine ⟨?_, h2, ?_⟩
      · rcases h1 with h1 | ⟨u, hu, hup, hcu⟩
        · exact Or.inl h1
        · exact Or.inr ⟨u, by simp [hu], hup, hcu⟩
      · intro u hu hup
        rcases List.mem_cons.mp hu with rfl | hu
        · exact absurd hup hp
        · exact h3 u hu hup

theorem qualifies_iff (cooldownCoins : List String) (openPrices : String → Option ℚ)
    (t : Ticker) (tickers : List Ticker) :
    (t ∈ tickers ∧ qualifies cooldownCoins openPrices t = true)
      ↔ (t ∈ usdtPairs cooldownCoins tickers ∧ passesThreshold openPrices t = true) := by
  rw [passesThreshold_iff]
  unfold qualifies usdtPairs
  cases h : openPrices t.s with
  | none => simp
  | some ref => simp [and_assoc]

/-- C4: with no RSI data, the scan yields a candidate exactly when some tick of the batch
qualifies (symbol ends in USDT, not in the cooldown set, has a reference price, absolute
change strictly above 2); a yielded candidate is a qualifying tick of the batch, its absolute
change is the smallest among the qualifying ticks, and its direction is long exactly when its
change is positive; a tick whose absolute change is exactly 2 does not qualify. -/
theorem C4_scanner_selection (cooldownCoins : List String) (openPrices : String → Option ℚ)
    (tickers : List Ticker) :
    ((scan cooldownCoins openPrices noRsi tickers).isSome = true
        ↔ ∃ t ∈ tickers, qualifies cooldownCoins openPrices t = true)
      ∧ (∀ c, scan cooldownCoins openPrices noRsi tickers = some c →
          (∃ t ∈ tickers, qualifies cooldownCoins openPrices t = true ∧ c.symbol = t.s
              ∧ c.currentPrice = t.c ∧ c.priceChangePercent = changePercent openPrices t)
            ∧ (∀ u ∈ tickers, qualifies cooldownCoins openPrices u = true →
                |c.priceChangePercent| ≤ |changePercent openPrices u|)
            ∧ (c.direction = .long ↔ c.priceChangePercent > 0))
      ∧ (∀ t : Ticker, |changePercent openPrices t| = 2 →
          qualifies cooldownCoins openPrices t = false) := by
  obtain ⟨h1, h2⟩ := scan_fold_spec openPrices (usdtPairs cooldownCoins tickers) none
  refine ⟨?_, ?_, ?_⟩
  · unfold scan
    rw [h1]
    constructor
    · rintro (h | ⟨t, ht, hp⟩)
      · simp at h
      · exact ⟨t, ((qualifies_iff cooldownCoins openPrices t tickers).mpr ⟨ht, hp⟩)⟩
    · rintro ⟨t, ht, hq⟩
      exact Or.inr ⟨t, (qualifies_iff cooldownCoins openPrices t tickers).mp ⟨ht, hq⟩⟩
  · intro c hc
    obtain ⟨ha, _, hc3⟩ := h2 c hc
    rcases ha with ha | ⟨t, ht, hp, hct⟩
    · simp at ha
    · have hq := (qualifies_iff cooldownCoins openPrices t tickers).mpr ⟨ht, hp⟩
      refine ⟨⟨t, hq.1, hq.2, by simp [hct, mkCandidate], by simp [hct, mkCandidate],
        by simp [hct, mkCandidate]⟩, ?_, ?_⟩
      · intro u hu hq
        have hm := (qualifies_iff cooldownCoins openPrices u tickers).mp ⟨hu, hq⟩
        exact hc3 u hm.1 hm.2
      · rw [hct]
        by_cases hpos : changePercent openPrices t > 0
        · simp [mkCandidate, hpos]
        · simp [mkCandidate, hpos]
  · intro t ht
    unfold qualifies
    cases h : openPrices t.s with
    | none => simp
    | some ref => simp [ht]

/-- C4 witness: reference price 100 and a tick at 103 yield the Long candidate at 103. -/
theorem C4_scanner_selection_witness :
    scan [] scenarioPrices noRsi scenarioBatch = some (mkCandidate "BTCUSDT" 103 3)
      ∧ (∃ t ∈ scenarioBatch, qualifies [] scenarioPrices t = true
          ∧ (mkCandidate "BTCUSDT" 103 3).symbol = t.s
          ∧ (mkCandidate "BTCUSDT" 103 3).currentPrice = t.c
          ∧ (mkCandidate "BTCUSDT" 103 3).priceChangePercent = changePercent scenarioPrices t) :=
  ⟨by decide!,
   ((C4_scanner_selection [] scenarioPrices scenarioBatch).2.1 (mkCandidate "BTCUSDT" 103 3)
      (by decide!)).1⟩

/-! ### The ledger -/

theorem realizedTotal_append (a b : List HistoryEvent) :
    realizedTotal (a ++ b) = realizedTotal a + realizedTotal b := by
  simp [realizedTotal]

theorem ledgerBalanced_kept (balance : ℚ) : KeptTimed (LedgerBalanced balance) where
  exit := by
    intro st trade exitPrice outcome h
    unfold exitTrade
    split
    · exact h
    · rename_i t ht
      split
      · unfold LedgerBalanced at h ⊢
        simp only [realizedTotal_append, h]
        cases hd : t.direction <;>
          simp [realizedTotal, realizedProfit, profitOrLoss, leverage, hd] <;> ring
      · exact h
  entry := by
    intro st ticker h
    unfold handleTradeEntry
    split
    · exact h
    · dsimp only
      split
      · exact h
      · unfold LedgerBalanced at h ⊢
        simp [realizedTotal_append, h, realizedTotal, realizedProfit]
  minor := by
    intro st st1 m h
    unfold LedgerBalanced at h ⊢
    rw [m.history, m.portfolio, h]
  remove := fun _ _ _ _ _ _ h => h
  tick := fun _ _ _ h => h

/-- C5: after any sequence of turns from a state with starting balance B0, the balance is B0
plus the sum, over the positions closed so far, of (exitPrice - entryPrice) * positionSize *
leverage for a Long and (entryPrice - exitPrice) * positionSize * leverage for a Short; the
sum reads only the entry price, size, direction and exit price of each closed position, so
it is the same however many ratchet steps the position went through. -/
theorem C5_ledger_round_trip (openPrices : String → Option ℚ) (balance : ℚ)
    (events : List Event) :
    (run openPrices (initialState balance) events).portfolio
      = balance + realizedTotal (run openPrices (initialState balance) events).history :=
  kept_run (ledgerBalanced_kept balance) openPrices events _
    (by simp [LedgerBalanced, initialState, realizedTotal])

/-! ### Closing a position -/

theorem exitTrade_not_current (st : State) (trade : Nat) (exitPrice : ℚ) (outcome : Outcome)
    (h : ∀ t, st.currentTrade = some t → t.id ≠ trade) :
    exitTrade st trade exitPrice outcome = st := by
  unfold exitTrade
  split
  · rfl
  · rename_i t ht
    simp [h t ht]

theorem exitTrade_current (st : State) (t : Trade) (exitPrice : ℚ) (outcome : Outcome)
    (h : st.currentTrade = some t) :
    (exitTrade st t.id exitPrice outcome).currentTrade = none
      ∧ (exitTrade st t.id exitPrice outcome).portfolio = st.portfolio + profitOrLoss t exitPrice
      ∧ (exitTrade st t.id exitPrice outcome).cooldownCoins = cooldownAdd st.cooldownCoins t.symbol
      ∧ (exitTrade st t.id exitPrice outcome).history
          = st.history ++ [.exited t exitPrice outcome st.now] := by
  simp [exitTrade, h]

theorem exitTrade_idle (st : State) (trade : Nat) (exitPrice : ℚ) (outcome : Outcome)
    (h : st.currentTrade = none) : exitTrade st trade exitPrice outcome = st := by
  simp [exitTrade, h]

theorem priceArrives_idle (st : State) (trade : Nat) (price : ℚ)
    (h : st.currentTrade = none) :
    (priceArrives st trade price).portfolio = st.portfolio
      ∧ (priceArrives st trade price).cooldownCoins = st.cooldownCoins
      ∧ (priceArrives st trade price).currentTrade = none
      ∧ (priceArrives st trade price).history = st.history := by
  unfold priceArrives
  split
  · simp [h]
  · dsimp only
    split
    · rw [exitTrade_idle _ _ _ _ (by simpa using h)]
      simp [h]
    · simp [h]

/-- C6: a second exitTrade on the same trade leaves the state of the first call; exitTrade
on a trade that is not the current trade changes nothing; and once exitTrade has closed
the current trade (applying its profit or loss once, emptying the slot), the force-close
callback changes nothing and a later price observation of the same monitor changes
neither the balance, the cooldown set, the empty slot nor the history. -/
theorem C6_close_idempotent (st : State) (trade : Nat) (p1 p2 : ℚ) (o1 o2 : Outcome) :
    exitTrade (exitTrade st trade p1 o1) trade p2 o2 = exitTrade st trade p1 o1
      ∧ ((∀ t, st.currentTrade = some t → t.id ≠ trade) → exitTrade st trade p2 o2 = st)
      ∧ (∀ t, st.currentTrade = some t → t.id = trade →
          (exitTrade st trade p1 o1).currentTrade = none
            ∧ (exitTrade st trade p1 o1).portfolio = st.portfolio + profitOrLoss t p1
            ∧ (∀ symbol price,
                runTimer (exitTrade st trade p1 o1) (.forceClose symbol price)
                  = exitTrade st trade p1 o1)
            ∧ (priceArrives (exitTrade st trade p1 o1) trade p2).portfolio
                = st.portfolio + profitOrLoss t p1
            ∧ (priceArrives (exitTrade st trade p1 o1) trade p2).cooldownCoins
                = (exitTrade st trade p1 o1).cooldownCoins
            ∧ (priceArrives (exitTrade st trade p1 o1) trade p2).currentTrade = none
            ∧ (priceArrives (exitTrade st trade p1 o1) trade p2).history
                = (exitTrade st trade p1 o1).history) := by
  refine ⟨?_, exitTrade_not_current st trade p2 o2, ?_⟩
  · cases hc : st.currentTrade with
    | none => simp [exitTrade, hc]
    | some t =>
      by_cases hid : t.id = trade
      · subst hid
        exact exitTrade_idle _ _ _ _ (exitTrade_current st t p1 o1 hc).1
      · simp [exitTrade, hc, hid]
  · intro t hc hid
    subst hid
    obtain ⟨h1, h2, _, _⟩ := exitTrade_current st t p1 o1 hc
    obtain ⟨q1, q2, q3, q4⟩ := priceArrives_idle _ t.id p2 h1
    refine ⟨h1, h2, ?_, by rw [q1, h2], q2, q3, q4⟩
    intro symbol price
    simp [runTimer, h1]

/-- C6 witness: the position of the scenario entry is closed at 104 and closed again at 90. -/
theorem C6_close_idempotent_witness :
    (run scenarioPrices (initialState 10) scenarioEntry).currentTrade = some scenarioTrade
      ∧ exitTrade (exitTrade (run scenarioPrices (initialState 10) scenarioEntry) 1 104
            .trailing_stop) 1 90 .timeout
          = exitTrade (run scenarioPrices (initialState 10) scenarioEntry) 1 104 .trailing_stop
      ∧ (priceArrives (exitTrade (run scenarioPrices (initialState 10) scenarioEntry) 1 104
            .trailing_stop) 1 90).portfolio
          = (run scenarioPrices (initialState 10) scenarioEntry).portfolio
              + profitOrLoss scenarioTrade 104 :=
  ⟨by decide!,
   (C6_close_idempotent (run scenarioPrices (initialState 10) scenarioEntry) 1 104 90
      .trailing_stop .timeout).1,
   ((C6_close_idempotent (run scenarioPrices (initialState 10) scenarioEntry) 1 104 90
      .trailing_stop .timeout).2.2 scenarioTrade (by decide!) (by decide!)).2.2.2.1⟩

/-! ### The halt condition -/

theorem handleTradeEntry_nonpositive_balance (st : State) (ticker : Candidate)
    (hb : st.portfolio ≤ 0) (hp : 0 < ticker.currentPrice) :
    handleTradeEntry st ticker = st := by
  unfold handleTradeEntry
  split
  · rfl
  · dsimp only
    rw [if_pos]
    exact div_nonpos_of_nonpos_of_nonneg hb (le_of_lt hp)

/-- C7: with balance 10001 (above 10000), no position open and the socket open, the batch
of scenario A is processed to its end: a position is entered, with the whole balance as
exposure, and only then is the socket closed. -/
theorem C7_entry_before_halt_check :
    (initialState 10001).portfolio > 10000
      ∧ (initialState 10001).currentTrade = none
      ∧ (run scenarioPrices (initialState 10001) scenarioEntry).currentTrade
          = some { scenarioTrade with positionSize := 10001 / 103 }
      ∧ (run scenarioPrices (initialState 10001) scenarioEntry).wsOpen = false := by
  decide!

/-! ### The force-close timer -/

theorem handleTradeEntry_timer (st : State) (ticker : Candidate)
    (h : (handleTradeEntry st ticker).currentTrade ≠ st.currentTrade) :
    (handleTradeEntry st ticker).timers
      = st.timers ++ [{ id := st.nextId + 1, due := st.now + tradeTimeout,
                        action := .forceClose ticker.symbol ticker.currentPrice }]
      ∧ ∃ t, (handleTradeEntry st ticker).currentTrade = some t
          ∧ t.entryPrice = ticker.currentPrice := by
  unfold handleTradeEntry at h ⊢
  split
  · rename_i hs
    simp [hs] at h
  · rename_i hs
    dsimp only at h ⊢
    split
    · rename_i hz
      simp [hs, hz] at h
    · simp

/-- C8: a Long entered at 103 whose monitor last observed 103.08 is force-closed at the
180-second deadline with outcome timeout at exit price 103, the entry price held by the
timer callback, not at the last observed price 103.08; the realized profit is 0 and the
balance stays 10, where the last observed price would give 10 + 0.08 * (10 / 103) * 10. -/
theorem C8_timeout_exits_at_entry_price :
    (run scenarioPrices (initialState 10) scenarioTimeout).history
        = [.entered scenarioTrade, .exited scenarioTrade 103 .timeout 180000]
      ∧ (run scenarioPrices (initialState 10) scenarioTimeout).portfolio = 10
      ∧ (run scenarioPrices (initialState 10) scenarioTimeout).currentTrade = none
      ∧ (10 : ℚ) + profitOrLoss scenarioTrade (10308 / 100) ≠ 10 := by
  decide!

/-! ### Repeated observations -/

theorem ratchet_not_reached (direction : Direction) (lv : Levels) (p : ℚ)
    (h : reachedTarget direction p lv.targetPrice = false) : ratchet direction lv p = lv := by
  simp [ratchet, h]

theorem ratchet_reached (direction : Direction) (lv : Levels) (p : ℚ)
    (h : reachedTarget direction p lv.targetPrice = true) :
    (ratchet direction lv p).targetPrice = lv.targetPrice * targetFactor direction := by
  cases direction <;> simp [ratchet, h, targetFactor]

/-- C10 (as stated, refuted): a Long entered at 100 observes 110 and stays open with levels
101.101; observing 110 again moves both levels to 102.11201. -/
theorem C10_repeated_observation_counterexample :
    (observeStep .long (initialLevels .long 100) 110).2 = false
      ∧ (observeStep .long (initialLevels .long 100) 110).1
          = { targetPrice := 101101 / 1000, stopLossPrice := 101101 / 1000 }
      ∧ (observeStep .long (observeStep .long (initialLevels .long 100) 110).1 110).1
          = { targetPrice := 10211201 / 100000, stopLossPrice := 10211201 / 100000 }
      ∧ (observeStep .long (observeStep .long (initialLevels .long 100) 110).1 110).1
          ≠ (observeStep .long (initialLevels .long 100) 110).1 := by
  decide!

/-- C10 (amended): when an observation of p leaves the position open, observing the same p
again leaves take-profit and stop-loss unchanged provided p has not reached the take-profit
in force after the first observation; when p has reached it (and it is positive), the
second observation moves the take-profit one more increment. -/
theorem C10_repeated_observation (direction : Direction) (lv : Levels) (p : ℚ)
    (hopen : (observeStep direction lv p).2 = false) :
    (reachedTarget direction p (observeStep direction lv p).1.targetPrice = false →
        (observeStep direction (observeStep direction lv p).1 p).1
          = (observeStep direction lv p).1)
      ∧ (reachedTarget direction p (observeStep direction lv p).1.targetPrice = true →
          0 < (observeStep direction lv p).1.targetPrice →
          (observeStep direction (observeStep direction lv p).1 p).1.targetPrice
              = (observeStep direction lv p).1.targetPrice * targetFactor direction
            ∧ (observeStep direction (observeStep direction lv p).1 p).1
                ≠ (observeStep direction lv p).1) := by
  simp only [observeStep] at hopen ⊢
  generalize ratchet direction lv p = lv1 at hopen ⊢
  constructor
  · intro h
    exact ratchet_not_reached direction lv1 p h
  · intro h hpos
    have key := ratchet_reached direction lv1 p h
    refine ⟨key, ?_⟩
    intro heq
    rw [heq] at key
    cases direction <;> simp [targetFactor] at key <;> linarith

/-- C10 witness: a Long with take-profit 100.1 and stop 99.9 observes 100 twice (levels
unchanged), and the ratchet case at the counterexample input. -/
theorem C10_repeated_observation_witness :
    (observeStep .long (initialLevels .long 100) 100).2 = false
      ∧ (observeStep .long (observeStep .long (initialLevels .long 100) 100).1 100).1
          = (observeStep .long (initialLevels .long 100) 100).1
      ∧ (observeStep .long (observeStep .long (initialLevels .long 100) 110).1 110).1
          ≠ (observeStep .long (initialLevels .long 100) 110).1 :=
  ⟨by decide!,
   (C10_repeated_observation .long (initialLevels .long 100) 100 (by decide!)).1 (by decide!),
   ((C10_repeated_observation .long (initialLevels .long 100) 110 (by decide!)).2 (by decide!)
      (by decide!)).2⟩

/-! ### The cooldown window -/

theorem exitTimes_append (symbol : String) (a b : List HistoryEvent) :
    exitTimes symbol (a ++ b) = exitTimes symbol a ++ exitTimes symbol b := by
  induction a with
  | nil => rfl
  | cons x xs ih =>
    cases x with
    | entered t => simpa [exitTimes] using ih
    | exited t p o time =>
      by_cases h : t.symbol = symbol
      · simp [exitTimes, h, ih]
      · simp [exitTimes, h, ih]

theorem removalsFor_eq_filter (symbol : String) (timers : List Timer) :
    removalsFor symbol timers
      = (timers.filter isCooldownTimer).filter
          (fun tm => decide (tm.action = .cooldownDelete symbol)) := by
  unfold removalsFor
  rw [List.filter_filter]
  apply List.filter_congr
  intro tm _
  by_cases h : tm.action = .cooldownDelete symbol
  · simp [h, isCooldownTimer]
  · simp [h]

theorem removalsFor_congr (symbol : String) (a b : List Timer)
    (h : a.filter isCooldownTimer = b.filter isCooldownTimer) :
    removalsFor symbol a = removalsFor symbol b := by
  rw [removalsFor_eq_filter, removalsFor_eq_filter, h]

theorem mem_removalsFor (symbol : String) (timers : List Timer) (tm : Timer) :
    tm ∈ removalsFor symbol timers ↔ tm ∈ timers ∧ tm.action = .cooldownDelete symbol := by
  simp [removalsFor]

theorem mem_cooldownAdd (coins : List String) (symbol x : String) :
    x ∈ cooldownAdd coins symbol ↔ x ∈ coins ∨ x = symbol := by
  unfold cooldownAdd
  split
  · rename_i h
    simp at h
    constructor
    · exact Or.inl
    · rintro (h1 | h1)
      · exact h1
      · exact h1 ▸ h
  · simp

theorem mem_cooldownRemove (coins : List String) (symbol x : String) :
    x ∈ cooldownRemove coins symbol ↔ x ∈ coins ∧ x ≠ symbol := by
  simp [cooldownRemove]

theorem timerInv_minor (st st1 : State) (m : Minor st st1) (h : TimerInv st) : TimerInv st1 where
  ids := by
    intro tm htm
    rcases m.timers tm htm with h1 | ⟨_, h2, _⟩
    · exact lt_of_lt_of_le (h.ids tm h1) m.nextId
    · exact h2
  handle := by
    intro t ht i hi
    rw [m.currentTrade] at ht
    obtain ⟨h1, h2⟩ := h.handle t ht i hi
    refine ⟨lt_of_lt_of_le h1 m.nextId, ?_⟩
    intro tm htm hid
    rcases m.timers tm htm with h3 | ⟨h3, _, _⟩
    · exact h2 tm h3 hid
    · omega
  due := by
    intro tm htm
    rw [m.now]
    rcases m.timers tm htm with h1 | ⟨_, _, h3⟩
    · exact h.due tm h1
    · exact le_of_lt h3
  origin := by
    intro symbol tm htm
    rw [removalsFor_congr symbol _ _ m.removals] at htm
    rw [m.history]
    exact h.origin symbol tm htm

theorem windowInv_congr (symbol : String) (st st1 : State) (h1 : st1.now = st.now)
    (h2 : symbol ∈ st1.cooldownCoins ↔ symbol ∈ st.cooldownCoins)
    (h3 : exitTimes symbol st1.history = exitTimes symbol st.history)
    (h4 : removalsFor symbol st1.timers = removalsFor symbol st.timers)
    (h : WindowInv symbol st) : WindowInv symbol st1 := by
  unfold WindowInv at h ⊢
  rw [h1, h2, h3, h4]
  exact h

theorem coolInv_minor (symbol : String) (st st1 : State) (m : Minor st st1)
    (h : CoolInv symbol st) : CoolInv symbol st1 :=
  { timer := timerInv_minor st st1 m h.timer
    window := windowInv_congr symbol st st1 m.now (by rw [m.cooldownCoins]) (by rw [m.history])
      (removalsFor_congr symbol _ _ m.removals) h.window }

theorem coolInv_tick (symbol : String) (st : State) (dt : Nat)
    (hg : ∀ tm ∈ st.timers, st.now + dt ≤ tm.due) (h : CoolInv symbol st) :
    CoolInv symbol { st with now := st.now + dt } where
  timer :=
    { ids := h.timer.ids
      handle := h.timer.handle
      due := hg
      origin := h.timer.origin }
  window := by
    intro earlier T he hs
    obtain ⟨w1, w2, w3, w4⟩ := h.window earlier T he hs
    refine ⟨w1, w2, w3, ?_⟩
    intro hr
    have := w4 hr
    show T + cooldownDuration ≤ st.now + dt
    omega

theorem coolInv_entry (symbol : String) (st : State) (ticker : Candidate)
    (h : CoolInv symbol st) : CoolInv symbol (handleTradeEntry st ticker) := by
  unfold handleTradeEntry
  split
  · exact h
  · dsimp only
    split
    · exact h
    · refine ⟨⟨?_, ?_, ?_, ?_⟩, ?_⟩
      · intro tm htm
        simp only [List.mem_append, List.mem_singleton] at htm
        rcases htm with h1 | h1
        · have := h.timer.ids tm h1
          show tm.id < st.nextId + 2
          omega
        · subst h1
          show st.nextId + 1 < st.nextId + 2
          omega
      · intro t ht i hi
        simp only [Option.some.injEq] at ht
        subst ht
        simp only [Option.some.injEq] at hi
        subst hi
        refine ⟨by show st.nextId + 1 < st.nextId + 2; omega, ?_⟩
        intro tm htm hid
        simp only [List.mem_append, List.mem_singleton] at htm
        rcases htm with h1 | h1
        · have := h.timer.ids tm h1
          omega
        · subst h1
          rfl
      · intro tm htm
        simp only [List.mem_append, List.mem_singleton] at htm
        rcases htm with h1 | h1
        · exact h.timer.due tm h1
        · subst h1
          show st.now ≤ st.now + tradeTimeout
          omega
      · intro sym tm htm
        have hr : removalsFor sym (st.timers ++
            [{ id := st.nextId + 1, due := st.now + tradeTimeout,
               action := .forceClose ticker.symbol ticker.currentPrice }])
            = removalsFor sym st.timers := by
          simp [removalsFor]
        rw [hr] at htm
        obtain ⟨T0, hT0, hd⟩ := h.timer.origin sym tm htm
        refine ⟨T0, ?_, hd⟩
        simpa [exitTimes_append, exitTimes] using hT0
      · refine windowInv_congr symbol st _ ?_ ?_ ?_ ?_ h.window
        · rfl
        · exact Iff.rfl
        · simp [exitTimes_append, exitTimes]
        · simp [removalsFor]

theorem filter_erase_single {α : Type} [DecidableEq α] (p : α → Bool) (a : α)
    (hp : p a = true) (l : List α) (ha : a ∈ l) (hl : (l.filter p).length ≤ 1) :
    (l.erase a).filter p = [] := by
  induction l with
  | nil => simp at ha
  | cons x xs ih =>
    by_cases hx : x = a
    · subst hx
      simp only [List.erase_cons_head]
      simp only [List.filter_cons, hp, if_true, List.length_cons] at hl
      exact List.length_eq_zero.mp (by omega)
    · have hmem : a ∈ xs := by
        rcases List.mem_cons.mp ha with h | h
        · exact absurd h.symm hx
        · exact h
      rw [List.erase_cons_tail (by simpa using hx)]
      by_cases hpx : p x = true
      · exfalso
        simp only [List.filter_cons, hpx, if_true, List.length_cons] at hl
        have hnil : xs.filter p = [] := List.length_eq_zero.mp (by omega)
        have : a ∈ xs.filter p := List.mem_filter.mpr ⟨hmem, hp⟩
        rw [hnil] at this
        simp at this
      · simp only [List.filter_cons, hpx] at hl ⊢
        exact ih hmem hl

theorem coolInv_remove (symbol : String) (st : State) (tm : Timer) (sym : String)
    (hmem : tm ∈ st.timers) (ha : tm.action = .cooldownDelete sym) (hd : tm.due ≤ st.now)
    (h : CoolInv symbol st) :
    CoolInv symbol { st with timers := st.timers.erase tm
                             cooldownCoins := cooldownRemove st.cooldownCoins sym } where
  timer :=
    { ids := fun x hx => h.timer.ids x (List.mem_of_mem_erase hx)
      handle := by
        intro t ht i hi
        obtain ⟨h1, h2⟩ := h.timer.handle t ht i hi
        exact ⟨h1, fun x hx => h2 x (List.mem_of_mem_erase hx)⟩
      due := fun x hx => h.timer.due x (List.mem_of_mem_erase hx)
      origin := by
        intro s x hx
        apply h.timer.origin s x
        rw [mem_removalsFor] at hx ⊢
        exact ⟨List.mem_of_mem_erase hx.1, hx.2⟩ }
  window := by
    intro earlier T he hs
    obtain ⟨w1, w2, w3, w4⟩ := h.window earlier T he hs
    by_cases hsym : sym = symbol
    · subst hsym
      have hnil : removalsFor sym (st.timers.erase tm) = [] :=
        filter_erase_single _ tm (by simp [ha]) st.timers hmem w2
      show (∀ x ∈ removalsFor sym (st.timers.erase tm), x.due = T + cooldownDuration)
        ∧ (removalsFor sym (st.timers.erase tm)).length ≤ 1
        ∧ (sym ∈ cooldownRemove st.cooldownCoins sym ↔ removalsFor sym (st.timers.erase tm) ≠ [])
        ∧ (removalsFor sym (st.timers.erase tm) = [] → T + cooldownDuration ≤ st.now)
      rw [hnil]
      refine ⟨by simp, by simp, by simp [mem_cooldownRemove], ?_⟩
      intro _
      have := w1 tm ((mem_removalsFor _ _ _).mpr ⟨hmem, ha⟩)
      omega
    · have hsame : removalsFor symbol (st.timers.erase tm) = removalsFor symbol st.timers :=
        filter_erase_of_false _ tm (by simp [ha, hsym]) st.timers
      show (∀ x ∈ removalsFor symbol (st.timers.erase tm), x.due = T + cooldownDuration)
        ∧ (removalsFor symbol (st.timers.erase tm)).length ≤ 1
        ∧ (symbol ∈ cooldownRemove st.cooldownCoins sym
            ↔ removalsFor symbol (st.timers.erase tm) ≠ [])
        ∧ (removalsFor symbol (st.timers.erase tm) = [] → T + cooldownDuration ≤ st.now)
      rw [hsame, mem_cooldownRemove]
      refine ⟨w1, w2, ?_, w4⟩
      rw [← w3]
      constructor
      · exact fun hx => hx.1
      · exact fun hx => ⟨hx, fun he => hsym he.symm⟩

/-- The timers left by the `clearTimeout` of line 252. -/
theorem cleared_spec (st : State) (t : Trade) (h : TimerInv st) (ht : st.currentTrade = some t) :
    (∀ tm ∈ (match t.timeoutId with
              | some id => clearTimeout st.timers id
              | none => st.timers), tm ∈ st.timers)
      ∧ (match t.timeoutId with
          | some id => clearTimeout st.timers id
          | none => st.timers).filter isCooldownTimer = st.timers.filter isCooldownTimer := by
  cases hi : t.timeoutId with
  | none => exact ⟨fun _ h1 => h1, rfl⟩
  | some i =>
    obtain ⟨_, h2⟩ := h.handle t ht i hi
    refine ⟨fun tm h1 => (List.mem_filter.mp h1).1, ?_⟩
    simp only [clearTimeout, List.filter_filter]
    apply List.filter_congr
    intro tm htm
    by_cases hc : isCooldownTimer tm = true
    · have hne : tm.id ≠ i := by
        intro he
        rw [h2 tm htm he] at hc
        exact Bool.false_ne_true hc
      simp [hc, hne]
    · simp [hc]

theorem coolInv_exit (symbol : String) (st : State) (trade : Nat) (exitPrice : ℚ)
    (outcome : Outcome) (h : CoolInv symbol st) :
    CoolInv symbol (exitTrade st trade exitPrice outcome) := by
  unfold exitTrade
  split
  · exact h
  · rename_i t ht
    split
    · obtain ⟨c1, c2⟩ := cleared_spec st t h.timer ht
      generalize (match t.timeoutId with
        | some id => clearTimeout st.timers id
        | none => st.timers) = cleared at c1 c2
      have hrem : ∀ s, removalsFor s cleared = removalsFor s st.timers :=
        fun s => removalsFor_congr s _ _ c2
      refine ⟨⟨?_, ?_, ?_, ?_⟩, ?_⟩
      · intro tm htm
        simp only [List.mem_append, List.mem_singleton] at htm
        rcases htm with h1 | h1
        · have := h.timer.ids tm (c1 tm h1)
          show tm.id < st.nextId + 1
          omega
        · subst h1
          show st.nextId < st.nextId + 1
          omega
      · intro t1 ht1
        simp at ht1
      · intro tm htm
        simp only [List.mem_append, List.mem_singleton] at htm
        rcases htm with h1 | h1
        · exact h.timer.due tm (c1 tm h1)
        · subst h1
          show st.now ≤ st.now + cooldownDuration
          omega
      · intro s tm htm
        simp only [removalsFor, List.filter_append, List.mem_append] at htm
        rcases htm with h1 | h1
        · obtain ⟨T0, hT0, hd⟩ := h.timer.origin s tm (by rw [← hrem s]; exact h1)
          refine ⟨T0, ?_, hd⟩
          simp only [exitTimes_append, List.mem_append]
          exact Or.inl hT0
        · simp only [List.mem_filter, List.mem_singleton, decide_eq_true_eq] at h1
          obtain ⟨h2, h3⟩ := h1
          subst h2
          simp only [TimerAction.cooldownDelete.injEq] at h3
          refine ⟨st.now, ?_, rfl⟩
          simp [exitTimes_append, exitTimes, h3]
      · intro earlier T he hs
        by_cases hsym : t.symbol = symbol
        · simp only [exitTimes_append, exitTimes, hsym, if_true] at he
          have h1 := List.append_inj_left' he rfl
          have h2 := List.append_inj_right' he rfl
          simp only [List.cons.injEq, and_true] at h2
          have hnil : removalsFor symbol st.timers = [] := by
            apply List.eq_nil_iff_forall_not_mem.mpr
            intro tm htm
            obtain ⟨T0, hT0, hd⟩ := h.timer.origin symbol tm htm
            have hdue := h.timer.due tm ((mem_removalsFor _ _ _).mp htm).1
            have := hs T0 (h1 ▸ hT0)
            omega
          have hnew : removalsFor symbol (cleared ++
              [{ id := st.nextId, due := st.now + cooldownDuration,
                 action := .cooldownDelete t.symbol }])
              = [{ id := st.nextId, due := st.now + cooldownDuration,
                   action := .cooldownDelete t.symbol }] := by
            have := hrem symbol
            rw [hnil] at this
            simp only [removalsFor] at this
            simp [removalsFor, List.filter_append, this, hsym]
          show (∀ x ∈ removalsFor symbol (cleared ++ _), x.due = T + cooldownDuration)
            ∧ (removalsFor symbol (cleared ++ _)).length ≤ 1
            ∧ (symbol ∈ cooldownAdd st.cooldownCoins t.symbol
                ↔ removalsFor symbol (cleared ++ _) ≠ [])
            ∧ (removalsFor symbol (cleared ++ _) = [] → T + cooldownDuration ≤ st.now)
          rw [hnew]
          refine ⟨?_, by simp, ?_, by simp⟩
          · intro x hx
            simp only [List.mem_singleton] at hx
            subst hx
            show st.now + cooldownDuration = T + cooldownDuration
            omega
          · simp [mem_cooldownAdd, hsym]
        · simp only [exitTimes_append, exitTimes, hsym, if_false, List.append_nil] at he
          obtain ⟨w1, w2, w3, w4⟩ := h.window earlier T he hs
          have hnew : removalsFor symbol (cleared ++
              [{ id := st.nextId, due := st.now + cooldownDuration,
                 action := .cooldownDelete t.symbol }])
              = removalsFor symbol st.timers := by
            rw [← hrem symbol]
            simp [removalsFor, List.filter_append, hsym]
          show (∀ x ∈ removalsFor symbol (cleared ++ _), x.due = T + cooldownDuration)
            ∧ (removalsFor symbol (cleared ++ _)).length ≤ 1
            ∧ (symbol ∈ cooldownAdd st.cooldownCoins t.symbol
                ↔ removalsFor symbol (cleared ++ _) ≠ [])
            ∧ (removalsFor symbol (cleared ++ _) = [] → T + cooldownDuration ≤ st.now)
          rw [hnew, mem_cooldownAdd]
          refine ⟨w1, w2, ?_, w4⟩
          rw [← w3]
          constructor
          · rintro (hx | hx)
            · exact hx
            · exact absurd hx.symm hsym
          · exact Or.inl
    · exact h

theorem coolInv_kept (symbol : String) : KeptTimed (CoolInv symbol) :=
  { exit := coolInv_exit symbol
    entry := coolInv_entry symbol
    minor := coolInv_minor symbol
    remove := fun st tm sym hmem ha hd h => coolInv_remove symbol st tm sym hmem ha hd h
    tick := coolInv_tick symbol }

/-! ### Timers fire on time -/

theorem quiescent_kept : Kept Quiescent where
  exit := by
    intro st trade exitPrice outcome h
    unfold exitTrade
    split
    · exact h
    · rename_i t ht
      split
      · intro tm htm
        simp only [List.mem_append, List.mem_singleton] at htm
        rcases htm with h1 | h1
        · apply h tm
          cases hi : t.timeoutId with
          | none => simpa [hi] using h1
          | some i =>
            simp only [hi, clearTimeout] at h1
            exact (List.mem_filter.mp h1).1
        · subst h1
          show st.now < st.now + cooldownDuration
          simp [cooldownDuration]
      · exact h
  entry := by
    intro st ticker h
    unfold handleTradeEntry
    split
    · exact h
    · dsimp only
      split
      · exact h
      · intro tm htm
        simp only [List.mem_append, List.mem_singleton] at htm
        rcases htm with h1 | h1
        · exact h tm h1
        · subst h1
          show st.now < st.now + tradeTimeout
          simp [tradeTimeout]
  minor := by
    intro st st1 m h tm htm
    rw [m.now]
    rcases m.timers tm htm with h1 | ⟨_, _, h3⟩
    · exact h tm h1
    · exact h3

theorem exitTrade_count (st : State) (trade : Nat) (exitPrice : ℚ) (outcome : Outcome)
    (tm : Timer) (hd : tm.due ≤ st.now) :
    List.count tm (exitTrade st trade exitPrice outcome).timers ≤ List.count tm st.timers := by
  unfold exitTrade
  split
  · exact le_refl _
  · rename_i t ht
    split
    · have hne : Timer.mk st.nextId (st.now + cooldownDuration) (.cooldownDelete t.symbol)
          ≠ tm := by
        intro he
        rw [← he] at hd
        simp [cooldownDuration] at hd
      simp only [List.count_append, List.count_singleton, beq_iff_eq, hne, if_false,
        Nat.add_zero]
      cases hi : t.timeoutId with
      | none => exact le_refl _
      | some i => exact (List.filter_sublist _).count_le tm
    · exact le_refl _

theorem runTimer_count (st : State) (action : TimerAction) (tm : Timer)
    (hd : tm.due ≤ st.now) :
    List.count tm (runTimer st action).timers ≤ List.count tm st.timers := by
  unfold runTimer
  split
  · split
    · exact le_refl _
    · split
      · exact exitTrade_count _ _ _ _ _ hd
      · exact le_refl _
  · exact le_refl _
  · unfold resolveSleep
    split
    · exact le_refl _
    · unfold loopTest
      split <;> exact le_refl _

theorem fireTimer_count (st : State) (tm0 tm : Timer) (hd : tm.due ≤ st.now) :
    List.count tm (fireTimer st tm0).timers ≤ List.count tm (st.timers.erase tm0) := by
  unfold fireTimer
  split
  · exact runTimer_count { st with timers := st.timers.erase tm0 } tm0.action tm hd
  · rename_i hn
    rw [List.erase_of_not_mem hn]

theorem quiescent_foldl_fireTimer (due : List Timer) (st : State)
    (h : ∀ tm : Timer, tm.due ≤ st.now → List.count tm st.timers ≤ List.count tm due) :
    Quiescent (due.foldl fireTimer st) := by
  induction due generalizing st with
  | nil =>
    intro tm htm
    by_contra hlt
    have h0 := h tm (not_lt.mp hlt)
    simp only [List.count_nil, Nat.le_zero_eq] at h0
    exact (List.count_eq_zero.mp h0) htm
  | cons tm0 rest ih =>
    simp only [List.foldl_cons]
    apply ih
    intro tm hd
    rw [fireTimer_now] at hd
    have h1 := fireTimer_count st tm0 tm hd
    have h2 := h tm hd
    rw [List.count_erase] at h1
    rw [List.count_cons] at h2
    by_cases he : tm0 = tm
    · subst he
      simp only [beq_self_eq_true, if_true] at h1 h2
      omega
    · have hb : (tm0 == tm) = false := by simpa using he
      simp only [hb, Bool.false_eq_true, if_false] at h1 h2
      omega

theorem quiescent_advance (st : State) (dt : Nat) (h : Quiescent st) :
    Quiescent (advance st dt) := by
  unfold advance
  split
  · exact h
  · rename_i hg
    simp only [List.any_eq_true, decide_eq_true_eq, not_exists, not_and, not_lt] at hg
    apply quiescent_foldl_fireTimer
    intro tm hd
    by_cases hmem : tm ∈ st.timers
    · have heq : tm.due = st.now + dt := le_antisymm hd (hg tm hmem)
      rw [List.count_filter (by simp [heq])]
    · rw [List.count_eq_zero.mpr hmem]
      exact Nat.zero_le _

theorem quiescent_step (openPrices : String → Option ℚ) (st : State) (ev : Event)
    (h : Quiescent st) : Quiescent (step openPrices st ev) := by
  cases ev with
  | message tickers rsi => exact kept_onMessage quiescent_kept _ _ _ _ h
  | resume handler => exact kept_resumeHandler quiescent_kept _ _ h
  | priceArrives trade price => exact kept_priceArrives quiescent_kept _ _ _ h
  | fetchFails trade => exact kept_fetchFails quiescent_kept _ _ h
  | advance dt => exact quiescent_advance _ _ h
  | handleTradeEntry ticker => exact quiescent_kept.entry _ _ h
  | exitTrade trade exitPrice outcome => exact quiescent_kept.exit _ _ _ _ h

theorem quiescent_run (openPrices : String → Option ℚ) (events : List Event) (st : State)
    (h : Quiescent st) : Quiescent (run openPrices st events) := by
  induction events generalizing st with
  | nil => exact h
  | cons ev rest ih => exact ih _ (quiescent_step openPrices st ev h)

theorem coolInv_initial (symbol : String) (balance : ℚ) :
    CoolInv symbol (initialState balance) where
  timer :=
    { ids := by simp [initialState]
      handle := by simp [initialState]
      due := by simp [initialState]
      origin := by simp [initialState, removalsFor] }
  window := by
    intro earlier T he
    simp [initialState, exitTimes] at he

/-- C9 (as stated, refuted): positions on BTCUSDT close at 1700 ms and at T = 2700 ms and
none closes afterwards; at 301700 ms, inside the window from T to T + 300000 ms, BTCUSDT
is not in the cooldown set and its tick passes the cooldown filter. -/
theorem C9_cooldown_window_counterexample :
    exitTimes "BTCUSDT" (run scenarioPrices (initialState 10) overlappingHandlers).history
        = [1700, 2700]
      ∧ (run scenarioPrices (initialState 10) overlappingHandlers).now = 301700
      ∧ 2700 ≤ (run scenarioPrices (initialState 10) overlappingHandlers).now
      ∧ (run scenarioPrices (initialState 10) overlappingHandlers).now < 2700 + cooldownDuration
      ∧ "BTCUSDT" ∉ (run scenarioPrices (initialState 10) overlappingHandlers).cooldownCoins
      ∧ usdtPairs (run scenarioPrices (initialState 10) overlappingHandlers).cooldownCoins
          scenarioBatch = scenarioBatch := by
  decide!

/-- C9 (amended): in every run, if the last close of a position on X was at time T and every
earlier close of a position on X was more than 300000 ms before T, then while the clock is
before T + 300000 ms X is in the cooldown set and no tick of X passes the cooldown filter,
and from T + 300000 ms on X is not in the cooldown set. -/
theorem C9_cooldown_window (openPrices : String → Option ℚ) (balance : ℚ)
    (events : List Event) (symbol : String) (earlier : List Nat) (T : Nat)
    (hlast : exitTimes symbol (run openPrices (initialState balance) events).history
      = earlier ++ [T])
    (hclear : ∀ T0 ∈ earlier, T0 + cooldownDuration < T) :
    ((run openPrices (initialState balance) events).now < T + cooldownDuration →
        symbol ∈ (run openPrices (initialState balance) events).cooldownCoins
          ∧ ∀ tickers : List Ticker,
              ∀ tk ∈ usdtPairs (run openPrices (initialState balance) events).cooldownCoins
                tickers, tk.s ≠ symbol)
      ∧ (T + cooldownDuration ≤ (run openPrices (initialState balance) events).now →
          symbol ∉ (run openPrices (initialState balance) events).cooldownCoins) := by
  have hinv := kept_run (coolInv_kept symbol) openPrices events _ (coolInv_initial symbol balance)
  have hq : Quiescent (run openPrices (initialState balance) events) :=
    quiescent_run openPrices events _ (by simp [Quiescent, initialState])
  obtain ⟨w1, _, w3, w4⟩ := hinv.window earlier T hlast hclear
  constructor
  · intro hlt
    have hin : symbol ∈ (run openPrices (initialState balance) events).cooldownCoins := by
      rw [w3]
      intro hnil
      have := w4 hnil
      omega
    refine ⟨hin, ?_⟩
    intro tickers tk htk heq
    simp only [usdtPairs, List.mem_filter, Bool.and_eq_true, Bool.not_eq_true',
      List.contains_eq_any_beq, List.any_eq_false, beq_iff_eq] at htk
    exact htk.2.2 symbol hin heq
  · intro hge hin
    rw [w3] at hin
    obtain ⟨tm, htm⟩ := List.exists_mem_of_ne_nil _ hin
    have hdue := w1 tm htm
    have := hq tm ((mem_removalsFor _ _ _).mp htm).1
    omega

/-- C9 witness: scenario E.  The position on BTCUSDT closes at T = 0; 60 seconds later the
symbol is in the cooldown set, and 301 seconds later it is not. -/
theorem C9_cooldown_window_witness :
    exitTimes "BTCUSDT" (run scenarioPrices (initialState 10) scenarioCooldown).history
        = [] ++ [0]
      ∧ (run scenarioPrices (initialState 10) scenarioCooldown).now = 60000
      ∧ "BTCUSDT" ∈ (run scenarioPrices (initialState 10) scenarioCooldown).cooldownCoins
      ∧ (run scenarioPrices (initialState 10) scenarioCooldownOver).now = 301000
      ∧ "BTCUSDT" ∉ (run scenarioPrices (initialState 10) scenarioCooldownOver).cooldownCoins :=
  ⟨by decide!, by decide!,
   ((C9_cooldown_window scenarioPrices 10 scenarioCooldown "BTCUSDT" [] 0 (by decide!)
      (by simp)).1 (by decide!)).1,
   by decide!,
   (C9_cooldown_window scenarioPrices 10 scenarioCooldownOver "BTCUSDT" [] 0 (by decide!)
      (by simp)).2 (by decide!)⟩

/-! ### Initial levels -/

theorem initialLevels_eq_specLevels (direction : Direction) (entryPrice : ℚ) :
    initialLevels direction entryPrice
      = specLevels profitTargetPercent maxLossPercent direction entryPrice := by
  cases direction <;> rfl

theorem handleTradeEntry_opens (st : State) (ticker : Candidate)
    (hidle : st.currentTrade = none) (hbal : 0 < st.portfolio)
    (hprice : 0 < ticker.currentPrice) :
    (handleTradeEntry st ticker).currentTrade
        = some { id := st.nextId
                 symbol := ticker.symbol
                 entryPrice := ticker.currentPrice
                 positionSize := st.portfolio / ticker.currentPrice
                 direction := ticker.direction
                 trailingStopPrice :=
                   some (initialLevels ticker.direction ticker.currentPrice).stopLossPrice
                 timeoutId := some (st.nextId + 1) }
      ∧ (handleTradeEntry st ticker).monitors
          = st.monitors ++
              [{ trade := st.nextId, symbol := ticker.symbol, direction := ticker.direction,
                 levels := initialLevels ticker.direction ticker.currentPrice,
                 phase := .fetching }] := by
  have hpos : ¬ st.portfolio / ticker.currentPrice ≤ 0 := not_le.mpr (div_pos hbal hprice)
  simp [handleTradeEntry, hidle, hpos]

/-- C11: a position entered at a price e > 0 starts with take-profit
e * (1 + profitTargetPercent) and stop-loss e * (1 - maxLossPercent) for Long, and with
e * (1 - profitTargetPercent) and e * (1 + maxLossPercent) for Short, so that
stopLoss < e <= takeProfit for Long and takeProfit <= e < stopLoss for Short; these are the
levels handleTradeEntry hands to the monitor (and the stop it stores in the trade) when it
opens a position from an idle state with a positive balance; and they are the levels of the
specification at the two constants of the source, which for any target percentage >= 0 and
loss percentage > 0 satisfy the same ordering. -/
theorem C11_initial_levels (e : ℚ) (he : 0 < e) :
    ((initialLevels .long e).targetPrice = e * (1 + profitTargetPercent)
        ∧ (initialLevels .long e).stopLossPrice = e * (1 - maxLossPercent)
        ∧ (initialLevels .long e).stopLossPrice < e
        ∧ e ≤ (initialLevels .long e).targetPrice)
      ∧ ((initialLevels .short e).targetPrice = e * (1 - profitTargetPercent)
        ∧ (initialLevels .short e).stopLossPrice = e * (1 + maxLossPercent)
        ∧ (initialLevels .short e).targetPrice ≤ e
        ∧ e < (initialLevels .short e).stopLossPrice)
      ∧ (∀ (st : State) (ticker : Candidate), st.currentTrade = none → 0 < st.portfolio →
          ticker.currentPrice = e →
          (handleTradeEntry st ticker).monitors
              = st.monitors ++
                  [{ trade := st.nextId, symbol := ticker.symbol, direction := ticker.direction,
                     levels := initialLevels ticker.direction e, phase := .fetching }]
            ∧ ∃ t, (handleTradeEntry st ticker).currentTrade = some t ∧ t.entryPrice = e
                ∧ t.trailingStopPrice = some (initialLevels ticker.direction e).stopLossPrice)
      ∧ (∀ direction : Direction,
          initialLevels direction e = specLevels profitTargetPercent maxLossPercent direction e)
      ∧ (∀ targetPct maxLossPct : ℚ, 0 ≤ targetPct → 0 < maxLossPct →
          (specLevels targetPct maxLossPct .long e).stopLossPrice < e
            ∧ e ≤ (specLevels targetPct maxLossPct .long e).targetPrice
            ∧ (specLevels targetPct maxLossPct .short e).targetPrice ≤ e
            ∧ e < (specLevels targetPct maxLossPct .short e).stopLossPrice) := by
  refine ⟨⟨rfl, rfl, ?_, ?_⟩, ⟨rfl, rfl, ?_, ?_⟩, ?_, ?_, ?_⟩
  · simp only [initialLevels, maxLossPercent]; nlinarith
  · simp only [initialLevels, profitTargetPercent]; nlinarith
  · simp only [initialLevels, profitTargetPercent]; nlinarith
  · simp only [initialLevels, maxLossPercent]; nlinarith
  · intro st ticker hidle hbal hprice
    subst hprice
    obtain ⟨h1, h2⟩ := handleTradeEntry_opens st ticker hidle hbal he
    exact ⟨h2, _, h1, rfl, rfl⟩
  · intro direction
    exact initialLevels_eq_specLevels direction e
  · intro targetPct maxLossPct ht hl
    simp only [specLevels]
    refine ⟨?_, ?_, ?_, ?_⟩ <;> nlinarith

/-- C11 witness: entry at 103.  With the constants of the source the levels are 103.103 and
102.897; with a target and a loss of 1% the levels of the specification are 104.03 and
101.97. -/
theorem C11_initial_levels_witness :
    (0 : ℚ) < 103
      ∧ initialLevels .long 103
          = { targetPrice := 103103 / 1000, stopLossPrice := 102897 / 1000 }
      ∧ (initialLevels .long 103).stopLossPrice < 103
      ∧ (103 : ℚ) ≤ (initialLevels .long 103).targetPrice
      ∧ specLevels (1 / 100) (1 / 100) .long 103
          = { targetPrice := 10403 / 100, stopLossPrice := 10197 / 100 }
      ∧ (specLevels (1 / 100) (1 / 100) .long 103).stopLossPrice < 103
      ∧ (103 : ℚ) ≤ (specLevels (1 / 100) (1 / 100) .long 103).targetPrice :=
  ⟨by norm_num, by decide!,
   (C11_initial_levels 103 (by norm_num)).1.2.2.1,
   (C11_initial_levels 103 (by norm_num)).1.2.2.2,
   by decide!,
   ((C11_initial_levels 103 (by norm_num)).2.2.2.2 (1 / 100) (1 / 100) (by norm_num)
      (by norm_num)).1,
   ((C11_initial_levels 103 (by norm_num)).2.2.2.2 (1 / 100) (1 / 100) (by norm_num)
      (by norm_num)).2.1⟩

/-! ### The RSI entry filter -/

theorem scanStep_of_rejects (openPrices rsi : String → Option ℚ) (best : Option Candidate)
    (t : Ticker) (ref : ℚ) (href : openPrices t.s = some ref) (h0 : ref ≠ 0)
    (h2 : |changePercent openPrices t| > 2) :
    scanStep openPrices rsi best t
      = if rsiRejects (changePercent openPrices t) (rsi t.s) then best
        else scanStepNoFilter openPrices best t := by
  have hc : priceChangePercent t.c ref = changePercent openPrices t := by
    simp [changePercent, href, priceChangePercent]
  unfold scanStep scanStepNoFilter
  simp only [href, h0, if_false, hc, h2, if_true]

theorem scanStep_none_rsi (openPrices rsi : String → Option ℚ) (best : Option Candidate)
    (t : Ticker) (hr : rsi t.s = none) :
    scanStep openPrices rsi best t = scanStepNoFilter openPrices best t := by
  unfold scanStep scanStepNoFilter
  cases h : openPrices t.s with
  | none => rfl
  | some ref =>
    by_cases h0 : ref = 0
    · simp [h0]
    · by_cases h2 : |priceChangePercent t.c ref| > 2
      · simp [h0, h2, hr, rsiRejects]
      · simp [h0, h2]

theorem scan_foldl_none_rsi (openPrices rsi : String → Option ℚ) (l : List Ticker)
    (hr : ∀ tk ∈ l, rsi tk.s = none) (best : Option Candidate) :
    l.foldl (scanStep openPrices rsi) best = l.foldl (scanStepNoFilter openPrices) best := by
  induction l generalizing best with
  | nil => rfl
  | cons tk rest ih =>
    simp only [List.foldl_cons]
    rw [scanStep_none_rsi openPrices rsi best tk (hr tk (by simp))]
    exact ih (fun x hx => hr x (by simp [hx])) _

/-- C12: for a tick with a reference price and absolute change above 2, the scan loop skips
the tick (bestTrade is left as it was) when the change is positive and the RSI is >= 70, or
the change is negative and the RSI is <= 30; with any other available RSI value, and with
no RSI value (null), the tick is treated exactly as by the loop with no filter, which makes
it the candidate when there is none yet; and when the RSI is null for every tick of a batch,
the scan returns what the scan with no filter returns. -/
theorem C12_rsi_filter (openPrices rsi : String → Option ℚ) (best : Option Candidate)
    (t : Ticker) (ref : ℚ) (href : openPrices t.s = some ref) (h0 : ref ≠ 0)
    (h2 : |changePercent openPrices t| > 2) :
    (∀ r, rsi t.s = some r →
        ((changePercent openPrices t > 0 ∧ r ≥ 70) ∨ (changePercent openPrices t < 0 ∧ r ≤ 30)) →
        scanStep openPrices rsi best t = best)
      ∧ (∀ r, rsi t.s = some r →
          ¬((changePercent openPrices t > 0 ∧ r ≥ 70)
              ∨ (changePercent openPrices t < 0 ∧ r ≤ 30)) →
          scanStep openPrices rsi best t = scanStepNoFilter openPrices best t)
      ∧ (rsi t.s = none →
          scanStep openPrices rsi best t = scanStepNoFilter openPrices best t)
      ∧ scanStepNoFilter openPrices none t
          = some (mkCandidate t.s t.c (changePercent openPrices t))
      ∧ (∀ (cooldownCoins : List String) (tickers : List Ticker),
          (∀ tk ∈ tickers, rsi tk.s = none) →
          scan cooldownCoins openPrices rsi tickers
            = scanNoFilter cooldownCoins openPrices tickers) := by
  have hstep := scanStep_of_rejects openPrices rsi best t ref href h0 h2
  refine ⟨?_, ?_, ?_, ?_, ?_⟩
  · intro r hr hcase
    rw [hstep, hr]
    have : rsiRejects (changePercent openPrices t) (some r) = true := by
      simp only [rsiRejects, Bool.or_eq_true, Bool.and_eq_true, decide_eq_true_eq]
      exact hcase
    rw [this]
    rfl
  · intro r hr hcase
    rw [hstep, hr]
    have : rsiRejects (changePercent openPrices t) (some r) = false := by
      rw [← Bool.not_eq_true]
      simp only [rsiRejects, Bool.or_eq_true, Bool.and_eq_true, decide_eq_true_eq]
      exact hcase
    rw [this]
    rfl
  · intro hr
    exact scanStep_none_rsi openPrices rsi best t hr
  · have hc : priceChangePercent t.c ref = changePercent openPrices t := by
      simp [changePercent, href, priceChangePercent]
    unfold scanStepNoFilter
    simp only [href, h0, if_false, hc, h2, if_true]
  · intro cooldownCoins tickers hr
    unfold scan scanNoFilter
    apply scan_foldl_none_rsi
    intro tk htk
    exact hr tk (List.mem_filter.mp htk).1

/-- C12 witness: the tick of scenario A (reference 100, price 103, change 3).  With RSI 75
the tick is skipped, with RSI 50 it becomes the candidate, and with no RSI the scan equals
the scan with no filter. -/
theorem C12_rsi_filter_witness :
    scenarioPrices "BTCUSDT" = some 100
      ∧ |changePercent scenarioPrices { s := "BTCUSDT", c := 103 }| > 2
      ∧ scanStep scenarioPrices rsiOverbought none { s := "BTCUSDT", c := 103 } = none
      ∧ scanStep scenarioPrices rsiNeutral none { s := "BTCUSDT", c := 103 }
          = scanStepNoFilter scenarioPrices none { s := "BTCUSDT", c := 103 }
      ∧ scanStepNoFilter scenarioPrices none { s := "BTCUSDT", c := 103 }
          = some (mkCandidate "BTCUSDT" 103 (changePercent scenarioPrices
              { s := "BTCUSDT", c := 103 }))
      ∧ scan [] scenarioPrices noRsi scenarioBatch = scanNoFilter [] scenarioPrices scenarioBatch :=
  ⟨by decide!, by decide!,
   (C12_rsi_filter scenarioPrices rsiOverbought none { s := "BTCUSDT", c := 103 } 100
      (by decide!) (by norm_num) (by decide!)).1 75 rfl (Or.inl ⟨by decide!, by norm_num⟩),
   (C12_rsi_filter scenarioPrices rsiNeutral none { s := "BTCUSDT", c := 103 } 100
      (by decide!) (by norm_num) (by decide!)).2.1 50 rfl (by decide!),
   (C12_rsi_filter scenarioPrices noRsi none { s := "BTCUSDT", c := 103 } 100
      (by decide!) (by norm_num) (by decide!)).2.2.2.1,
   (C12_rsi_filter scenarioPrices noRsi none { s := "BTCUSDT", c := 103 } 100
      (by decide!) (by norm_num) (by decide!)).2.2.2.2 [] scenarioBatch (fun _ _ => rfl)⟩

/-! ### Ratchet and stop check in one observation -/

theorem observeStep_long_reached (lv : Levels) (p : ℚ) (h : lv.targetPrice ≤ p) :
    (observeStep .long lv p).1
        = { targetPrice := lv.targetPrice * (101 / 100),
            stopLossPrice := lv.targetPrice * (101 / 100) }
      ∧ ((observeStep .long lv p).2 = true ↔ p ≤ lv.targetPrice * (101 / 100)) := by
  simp [observeStep, ratchet, reachedTarget, stopHit, h]

theorem observeStep_short_reached (lv : Levels) (p : ℚ) (h : p ≤ lv.targetPrice) :
    (observeStep .short lv p).1
        = { targetPrice := lv.targetPrice * (99 / 100),
            stopLossPrice := lv.targetPrice * (99 / 100) }
      ∧ ((observeStep .short lv p).2 = true ↔ lv.targetPrice * (99 / 100) ≤ p) := by
  simp [observeStep, ratchet, reachedTarget, stopHit, h]

theorem priceArrives_stop (st : State) (t : Trade) (m : Monitor) (p : ℚ)
    (hcur : st.currentTrade = some t) (hmon : findMonitor st t.id .fetching = some m)
    (hstop : (observeStep m.direction m.levels p).2 = true) :
    (priceArrives st t.id p).currentTrade = none
      ∧ (priceArrives st t.id p).history = st.history ++ [.exited t p .trailing_stop st.now]
      ∧ (priceArrives st t.id p).portfolio = st.portfolio + profitOrLoss t p := by
  simp [priceArrives, hmon, hstop, exitTrade, hcur]

theorem priceArrives_no_stop (st : State) (t : Trade) (m : Monitor) (p : ℚ)
    (hcur : st.currentTrade = some t) (hmon : findMonitor st t.id .fetching = some m)
    (hstop : (observeStep m.direction m.levels p).2 = false) :
    (priceArrives st t.id p).currentTrade = some t
      ∧ (priceArrives st t.id p).history = st.history
      ∧ (priceArrives st t.id p).portfolio = st.portfolio := by
  simp [priceArrives, hmon, hstop, hcur]

/-- C13: for an open position whose monitor is waiting for a price, with take-profit TP.
Long: an observed price p >= TP ratchets both levels to TP * 1.01; if also p <= TP * 1.01
the same observation closes the position at exit price p with outcome trailing_stop
(profit or loss applied once); the position is still open after the observation exactly
when p > TP * 1.01.  Short: the mirror, with p <= TP, levels TP * 0.99, close when
p >= TP * 0.99 and still open exactly when p < TP * 0.99. -/
theorem C13_ratchet_and_stop (st : State) (t : Trade) (m : Monitor) (p : ℚ)
    (hcur : st.currentTrade = some t) (hmon : findMonitor st t.id .fetching = some m)
    (hdir : m.direction = t.direction) :
    (t.direction = .long → m.levels.targetPrice ≤ p →
        (observeStep .long m.levels p).1
            = { targetPrice := m.levels.targetPrice * (101 / 100),
                stopLossPrice := m.levels.targetPrice * (101 / 100) }
          ∧ (p ≤ m.levels.targetPrice * (101 / 100) →
              (priceArrives st t.id p).currentTrade = none
                ∧ (priceArrives st t.id p).history
                    = st.history ++ [.exited t p .trailing_stop st.now]
                ∧ (priceArrives st t.id p).portfolio = st.portfolio + profitOrLoss t p)
          ∧ ((priceArrives st t.id p).currentTrade = some t
              ↔ m.levels.targetPrice * (101 / 100) < p))
      ∧ (t.direction = .short → p ≤ m.levels.targetPrice →
          (observeStep .short m.levels p).1
              = { targetPrice := m.levels.targetPrice * (99 / 100),
                  stopLossPrice := m.levels.targetPrice * (99 / 100) }
            ∧ (m.levels.targetPrice * (99 / 100) ≤ p →
                (priceArrives st t.id p).currentTrade = none
                  ∧ (priceArrives st t.id p).history
                      = st.history ++ [.exited t p .trailing_stop st.now]
                  ∧ (priceArrives st t.id p).portfolio = st.portfolio + profitOrLoss t p)
            ∧ ((priceArrives st t.id p).currentTrade = some t
                ↔ p < m.levels.targetPrice * (99 / 100))) := by
  constructor
  · intro hlong hp
    have hm : m.direction = .long := by rw [hdir, hlong]
    obtain ⟨h1, h2⟩ := observeStep_long_reached m.levels p hp
    refine ⟨h1, ?_, ?_⟩
    · intro hle
      exact priceArrives_stop st t m p hcur hmon (by rw [hm]; exact h2.mpr hle)
    · constructor
      · intro hopen
        by_contra hn
        have hstop := priceArrives_stop st t m p hcur hmon
          (by rw [hm]; exact h2.mpr (not_lt.mp hn))
        rw [hstop.1] at hopen
        exact Option.noConfusion hopen
      · intro hlt
        have hns : (observeStep m.direction m.levels p).2 = false := by
          rw [hm, ← Bool.not_eq_true, h2]
          exact not_le.mpr hlt
        exact (priceArrives_no_stop st t m p hcur hmon hns).1
  · intro hshort hp
    have hm : m.direction = .short := by rw [hdir, hshort]
    obtain ⟨h1, h2⟩ := observeStep_short_reached m.levels p hp
    refine ⟨h1, ?_, ?_⟩
    · intro hle
      exact priceArrives_stop st t m p hcur hmon (by rw [hm]; exact h2.mpr hle)
    · constructor
      · intro hopen
        by_contra hn
        have hstop := priceArrives_stop st t m p hcur hmon
          (by rw [hm]; exact h2.mpr (not_lt.mp hn))
        rw [hstop.1] at hopen
        exact Option.noConfusion hopen
      · intro hlt
        have hns : (observeStep m.direction m.levels p).2 = false := by
          rw [hm, ← Bool.not_eq_true, h2]
          exact not_le.mpr hlt
        exact (priceArrives_no_stop st t m p hcur hmon hns).1

/-- C13 witness: the Long of the scenario entry (take-profit 103.103) observes 103.5, which
lies between 103.103 and 104.13403: the position is closed at 103.5 by the trailing stop. -/
theorem C13_ratchet_and_stop_witness :
    (run scenarioPrices (initialState 10) scenarioEntry).currentTrade = some scenarioTrade
      ∧ findMonitor (run scenarioPrices (initialState 10) scenarioEntry) scenarioTrade.id
          .fetching = some scenarioMonitor
      ∧ scenarioMonitor.levels.targetPrice ≤ 1035 / 10
      ∧ (1035 / 10 : ℚ) ≤ scenarioMonitor.levels.targetPrice * (101 / 100)
      ∧ (priceArrives (run scenarioPrices (initialState 10) scenarioEntry) scenarioTrade.id
            (1035 / 10)).currentTrade = none
      ∧ (priceArrives (run scenarioPrices (initialState 10) scenarioEntry) scenarioTrade.id
            (1035 / 10)).history
          = (run scenarioPrices (initialState 10) scenarioEntry).history
              ++ [.exited scenarioTrade (1035 / 10) .trailing_stop
                    (run scenarioPrices (initialState 10) scenarioEntry).now] :=
  ⟨by decide!, by decide!, by decide!, by decide!,
   (((C13_ratchet_and_stop (run scenarioPrices (initialState 10) scenarioEntry) scenarioTrade
      scenarioMonitor (1035 / 10) (by decide!) (by decide!) (by decide!)).1 (by decide!)
      (by decide!)).2.1 (by decide!)).1,
   (((C13_ratchet_and_stop (run scenarioPrices (initialState 10) scenarioEntry) scenarioTrade
      scenarioMonitor (1035 / 10) (by decide!) (by decide!) (by decide!)).1 (by decide!)
      (by decide!)).2.1 (by decide!)).2.1⟩

end TradingBot
